import Mathlib

/-!
Verification of the embedded TCP/IP stack (ENC28J60 ethernet driver,
`eth0.c` / `main.c` / `uart0.c`).

The development shallowly embeds the C sources:

* machine integers become `Nat` with explicit `% 2^32` where the C type
  (`uint32_t` accumulator) can overflow;
* the in-memory byte order of the little-endian target is kept: a struct
  field of type `uint16_t` / `uint32_t` is modelled by its in-memory value,
  and `htons` / `htols` are transcribed from the source;
* byte regions walked by the checksum code are `List Nat` of byte values;
* the single packet buffer mutated in place becomes functional record /
  list updates, and `etherPutPacket` calls become an explicit list of
  emitted (frame, size) pairs.
-/

/-! ## Byte-order helpers (eth0.c: htons, htols) -/

/-- eth0.c `htons`: `((value & 0xFF00) >> 8) + ((value & 0x00FF) << 8)`. -/
def htons (value : Nat) : Nat :=
  ((value &&& 0xFF00) >>> 8) + ((value &&& 0x00FF) <<< 8)

/-- eth0.c `htols`: byte-reverse a 32-bit value (snippet from the source). -/
def htols (value : Nat) : Nat :=
  let tmp_a := (value &&& 0xff000000) >>> 24
  let tmp_b := (value &&& 0x00ff0000) >>> 8
  let tmp_c := (value &&& 0x0000ff00) <<< 8
  let tmp_d := (value &&& 0x000000ff) <<< 24
  tmp_d ||| tmp_c ||| tmp_b ||| tmp_a

/-! ## Checksum engine (eth0.c: etherSumWords, getEtherChecksum)

`sum` is a `uint32_t` global; every `sum +=` is mod `2^32`.  The byte at an
even offset within one `etherSumWords` call is added as the low half of a
16-bit word, the byte at an odd offset shifted left by 8 (the `phase`
variable in the source). -/

/-- One `etherSumWords(data, n)` call, threading the `sum` accumulator.
`phase` starts at 0 (`false`) on every call. -/
def sumWordsFrom : Nat → Bool → List Nat → Nat
  | s, _, [] => s
  | s, false, b :: bs => sumWordsFrom ((s + b) % 4294967296) true bs
  | s, true, b :: bs => sumWordsFrom ((s + b * 256) % 4294967296) false bs

/-- eth0.c `etherSumWords`: add a byte region into the running `sum`. -/
def etherSumWords (s : Nat) (bytes : List Nat) : Nat := sumWordsFrom s false bytes

/-- The pure (non-overflowing) word sum of a byte region, used to reason
about `sumWordsFrom` when the accumulator stays below `2^32`. -/
def wsum : Bool → List Nat → Nat
  | _, [] => 0
  | false, b :: bs => b + wsum true bs
  | true, b :: bs => b * 256 + wsum false bs

/-- Fuel-driven carry folding; `foldCarry` supplies enough fuel. -/
def foldCarryAux : Nat → Nat → Nat
  | 0, s => s
  | f + 1, s => if s < 65536 then s else foldCarryAux f (s % 65536 + s / 65536)

/-- The `while ((sum >> 16) > 0)` loop of eth0.c `getEtherChecksum`. -/
def foldCarry (s : Nat) : Nat := foldCarryAux s s

/-- eth0.c `getEtherChecksum`: fold carries, return the bit-inverted low
16 bits (`~result` on a `uint16_t` is `65535 - result`). -/
def getEtherChecksum (s : Nat) : Nat := 65535 - foldCarry s

/-! ## IPv4 header checksum (eth0.c: etherCalcIpChecksum and the resum in
etherIsIp) -/

/-- eth0.c `etherCalcIpChecksum`: reset `sum`, add bytes 0-9 of the header
(`&ip->revSize`, 10 bytes), then `((revSize & 0xF) * 4) - 12` bytes from
`ip->sourceIp` (byte offset 12), and store the folded complement into the
16-bit checksum field at byte offsets 10-11 (little-endian `uint16_t`
store). -/
def etherCalcIpChecksum (hdr : List Nat) : List Nat :=
  let s := etherSumWords (etherSumWords 0 (hdr.take 10))
    ((hdr.drop 12).take ((hdr.getD 0 0 &&& 0xF) * 4 - 12))
  let c := getEtherChecksum s
  hdr.take 10 ++ [c % 256, c / 256] ++ hdr.drop 12

/-- A concrete 20-byte IPv4 header used to witness the checksum theorems:
version/IHL 0x45, total length 20, TTL 64, protocol 1, source 192.168.1.199,
destination 192.168.1.1 (checksum bytes left zero; the builder fills them). -/
def c2hdr : List Nat :=
  [0x45, 0, 0, 20, 0, 1, 0, 0, 64, 1, 0, 0, 192, 168, 1, 199, 192, 168, 1, 1]

/-! ## DHCP options (eth0.c: putOption, getOption) -/

/-- eth0.c `putOption(options, size, number, count, ...)`: write
`[number][count][values...]` at the cursor and return the advanced cursor.
The written prefix of the buffer is the list, the cursor its length; the
caller passes exactly `count` variadic values. -/
def putOption (options : List Nat) (number : Nat) (count : Nat)
    (values : List Nat) : List Nat :=
  options ++ number :: count :: values

/-- The scan loop of eth0.c `getOption`: starting at byte index `i`, if
`options[i]` matches the wanted number return the index of its value bytes
(the pointer `&options[i + 2]`), else skip `options[i + 1] + 2` bytes;
`NULL` is `none`. -/
def getOptionAux (options : List Nat) (number : Nat) (size : Nat) (i : Nat) : Option Nat :=
  if h : i < size then
    if options.getD i 0 == number then some (i + 2)
    else getOptionAux options number size (i + options.getD (i + 1) 0 + 2)
  else none
termination_by size - i
decreasing_by omega

/-- eth0.c `getOption`: scan from the start of the options region. -/
def getOption (options : List Nat) (number : Nat) (size : Nat) : Option Nat :=
  getOptionAux options number size 0

/-- A well-formed options region, as the `(number, count, values)` triples
laid out by successive `putOption` calls. -/
def encodeOptions : List (Nat × Nat × List Nat) → List Nat
  | [] => []
  | (n, c, vs) :: ts => n :: c :: (vs ++ encodeOptions ts)

/-- Where the scan of an encoded region lands, triple by triple. -/
def scanSpec (number : Nat) : List (Nat × Nat × List Nat) → Nat → Option Nat
  | [], _ => none
  | (n, c, _) :: ts, base =>
    if n = number then some (base + 2) else scanSpec number ts (base + c + 2)

/-- The options region used to witness the put/get round trip:
option 53 with value 1, then option 55 with values 1, 3. -/
def c8opts : List (Nat × Nat × List Nat) := [(53, 1, [1]), (55, 2, [1, 3])]

/-! ## ARP (eth0.c: etherIsArpRequest, etherSendArpResponse)

The packet buffer is viewed through the `etherFrame` and `arpFrame` structs;
every field holds its in-memory value.  The 6-byte hardware and 4-byte
protocol address arrays are byte lists. -/

structure ArpPkt where
  destAddress : List Nat
  sourceAddress : List Nat
  frameType : Nat
  hardwareType : Nat
  protocolType : Nat
  hardwareSize : Nat
  protocolSize : Nat
  op : Nat
  arpSourceAddress : List Nat
  arpSourceIp : List Nat
  arpDestAddress : List Nat
  arpDestIp : List Nat

/-- The per-octet comparison loop `while (ok & (i < IP_ADD_LENGTH))
{ ok = (a[i] == b[i]); i++; }`: all four octets must match. -/
def octetsMatch (a b : List Nat) : Bool :=
  (List.range 4).all (fun i => a.getD i 0 == b.getD i 0)

/-- eth0.c `etherIsArpRequest`: frame type 0x0806 (network order), target
protocol address equal to the configured `ipAddress` octet by octet, and
ARP op 1. -/
def etherIsArpRequest (ipAddress : List Nat) (p : ArpPkt) : Bool :=
  (p.frameType == htons 0x0806)
  && octetsMatch p.arpDestIp ipAddress
  && (p.op == htons 1)

/-- eth0.c `etherSendArpResponse`: set op to 2, copy the request sender MAC
into both destination MAC fields, write the device MAC into both source MAC
fields (each octet of `arp->sourceAddress` is read before the same octet is
overwritten), swap the ARP IPs, and transmit 42 octets. -/
def etherSendArpResponse (macAddress : List Nat) (p : ArpPkt) : ArpPkt × Nat :=
  ({ p with
      op := htons 2,
      arpDestAddress := p.arpSourceAddress,
      destAddress := p.sourceAddress,
      sourceAddress := macAddress,
      arpSourceAddress := macAddress,
      arpSourceIp := p.arpDestIp,
      arpDestIp := p.arpSourceIp }, 42)

/-- A concrete ARP who-has request for 192.168.1.199 from
00:11:22:33:44:55 at 192.168.1.1, used as the C4 witness. -/
def c4req : ArpPkt :=
  { destAddress := [255, 255, 255, 255, 255, 255]
    sourceAddress := [0, 17, 34, 51, 68, 85]
    frameType := htons 0x0806
    hardwareType := htons 1
    protocolType := htons 0x0800
    hardwareSize := 6
    protocolSize := 4
    op := htons 1
    arpSourceAddress := [0, 17, 34, 51, 68, 85]
    arpSourceIp := [192, 168, 1, 1]
    arpDestAddress := [0, 0, 0, 0, 0, 0]
    arpDestIp := [192, 168, 1, 199] }

/-! ## Byte serialization of struct fields (little-endian target) -/

/-- In-memory bytes of a `uint16_t` field. -/
def bytes16 (v : Nat) : List Nat := [v % 256, v / 256 % 256]

/-- In-memory bytes of a `uint32_t` field. -/
def bytes32 (v : Nat) : List Nat :=
  [v % 256, v / 256 % 256, v / 65536 % 256, v / 16777216 % 256]

/-! ## ICMP echo (eth0.c: etherIsPingRequest, etherSendPingResponse) -/

structure IcmpPkt where
  destAddress : List Nat
  sourceAddress : List Nat
  frameType : Nat
  revSize : Nat
  typeOfService : Nat
  length : Nat
  id : Nat
  flagsAndOffset : Nat
  ttl : Nat
  protocol : Nat
  headerChecksum : Nat
  sourceIp : List Nat
  destIp : List Nat
  icmpType : Nat
  icmpCode : Nat
  check : Nat
  icmpId : Nat
  seq_no : Nat
  icmpData : List Nat

/-- eth0.c `etherIsPingRequest`: IP protocol 1 and ICMP type 8. -/
def etherIsPingRequest (p : IcmpPkt) : Bool :=
  (p.protocol == 0x01) && (p.icmpType == 8)

/-- eth0.c `etherSendPingResponse`: swap the Ethernet MACs and the IP
addresses, set the ICMP type to 0, recompute the ICMP checksum over
`[type, code]` and then `ntohs(ip->length) - 24` bytes starting at the id
field (the subtraction is `uint16_t` arithmetic), and transmit
`14 + ntohs(ip->length)` octets. -/
def etherSendPingResponse (p : IcmpPkt) : IcmpPkt × Nat :=
  let icmp_size := (htons p.length + 65536 - 24) % 65536
  let s1 := etherSumWords 0 [0, p.icmpCode]
  let s2 := etherSumWords s1
    ((bytes16 p.icmpId ++ bytes16 p.seq_no ++ p.icmpData).take icmp_size)
  ({ p with
      destAddress := p.sourceAddress,
      sourceAddress := p.destAddress,
      destIp := p.sourceIp,
      sourceIp := p.destIp,
      icmpType := 0,
      check := getEtherChecksum s2 }, 14 + htons p.length)

/-- A concrete ICMP echo request (id 1, seq 7, payload "abcdef") used as
the C5 witness. -/
def c5req : IcmpPkt :=
  { destAddress := [2, 3, 4, 5, 6, 136]
    sourceAddress := [0, 17, 34, 51, 68, 85]
    frameType := htons 0x0800
    revSize := 0x45
    typeOfService := 0
    length := htons 34
    id := htons 0xBEEF
    flagsAndOffset := 0
    ttl := 64
    protocol := 1
    headerChecksum := 0
    sourceIp := [192, 168, 1, 1]
    destIp := [192, 168, 1, 199]
    icmpType := 8
    icmpCode := 0
    check := 0
    icmpId := htons 1
    seq_no := htons 7
    icmpData := [97, 98, 99, 100, 101, 102] }

/-! ## TCP (eth0.c: classify predicates, etherSendTcpSynAck,
etherSendTelnetData, etherSendAckFinAck; main.c: dispatch and tcp_state)

`tcpRest` is the byte region after the fixed 20-byte TCP header (options
followed by payload). -/

structure TcpPkt where
  destAddress : List Nat
  sourceAddress : List Nat
  frameType : Nat
  revSize : Nat
  typeOfService : Nat
  length : Nat
  id : Nat
  flagsAndOffset : Nat
  ttl : Nat
  protocol : Nat
  headerChecksum : Nat
  sourceIp : List Nat
  destIp : List Nat
  ipOptions : List Nat
  sourcePort : Nat
  destPort : Nat
  sequenceNumber : Nat
  ackNumber : Nat
  headerLength : Nat
  windowSize : Nat
  checksum : Nat
  urgent : Nat
  tcpRest : List Nat

/-- Bytes 0-9 of the IP header (`&ip->revSize`, 10 bytes). -/
def ipHdrBytes10T (p : TcpPkt) : List Nat :=
  [p.revSize, p.typeOfService] ++ bytes16 p.length ++ bytes16 p.id
    ++ bytes16 p.flagsAndOffset ++ [p.ttl, p.protocol]

/-- IP header bytes from offset 12 (`ip->sourceIp` onward). -/
def ipAddrBytesT (p : TcpPkt) : List Nat := p.sourceIp ++ p.destIp ++ p.ipOptions

/-- The IP header checksum as the send paths recompute it: reset, sum bytes
0-9, sum `(revSize & 0xF) * 4 - 12` bytes from offset 12, fold. -/
def ipCheckOf (p : TcpPkt) : Nat :=
  getEtherChecksum (etherSumWords (etherSumWords 0 (ipHdrBytes10T p))
    ((ipAddrBytesT p).take ((p.revSize &&& 0xF) * 4 - 12)))

/-- Byte image of the TCP header and what follows it. -/
def tcpHdrBytes (p : TcpPkt) : List Nat :=
  bytes16 p.sourcePort ++ bytes16 p.destPort ++ bytes32 p.sequenceNumber
    ++ bytes32 p.ackNumber ++ bytes16 p.headerLength ++ bytes16 p.windowSize
    ++ bytes16 p.checksum ++ bytes16 p.urgent ++ p.tcpRest

/-- eth0.c `etherIsTcpSYN`: bit 1 of `htons(tcp->headerLength)`. -/
def etherIsTcpSYN (p : TcpPkt) : Bool :=
  ((htons p.headerLength >>> 1) &&& 1) != 0

/-- eth0.c `etherIsTcpAck`: bit 4 of `htons(tcp->headerLength)` and the
acknowledgement number (host order) equal to `currentIsn`. -/
def etherIsTcpAck (currentIsn : Nat) (p : TcpPkt) : Bool :=
  (((htons p.headerLength >>> 4) &&& 1) != 0) && (htols p.ackNumber == currentIsn)

/-- eth0.c `etherIsTelnetData`: bits 3 (PSH) and 4 (ACK), ack matching
`currentIsn`. -/
def etherIsTelnetData (currentIsn : Nat) (p : TcpPkt) : Bool :=
  (((htons p.headerLength >>> 3) &&& 1) != 0)
    && (((htons p.headerLength >>> 4) &&& 1) != 0)
    && (htols p.ackNumber == currentIsn)

/-- eth0.c `etherIsTcpFINACK`: bits 4 (ACK) and 0 (FIN), ack matching
`currentIsn`. -/
def etherIsTcpFINACK (currentIsn : Nat) (p : TcpPkt) : Bool :=
  (((htons p.headerLength >>> 4) &&& 1) != 0)
    && ((htons p.headerLength &&& 1) != 0)
    && (htols p.ackNumber == currentIsn)

/-- Result of a TCP send path: the mutated buffer, the new `currentIsn`,
and the frames handed to `etherPutPacket` in order. -/
structure TcpSendResult where
  pkt : TcpPkt
  isn : Nat
  sent : List (TcpPkt × Nat)

/-- eth0.c `etherSendTcpSynAck`: swap MACs, IPs and ports; `ack = seq + 1`
(32-bit); `seq = currentIsn++`; OR the ACK flag into the header-length/flags
word (`htons`, `|= 1 << 4`, `htons` back); recompute the IP checksum, then
the TCP checksum over the pseudo-header and `tcpSize * 4` header bytes with
the checksum field zeroed; transmit `14 + ip header + tcpSize * 4` octets. -/
def etherSendTcpSynAck (p : TcpPkt) (currentIsn : Nat) : TcpSendResult :=
  let q1 : TcpPkt := { p with
    destAddress := p.sourceAddress,
    sourceAddress := p.destAddress,
    destIp := p.sourceIp,
    sourceIp := p.destIp,
    destPort := p.sourcePort,
    sourcePort := p.destPort,
    ackNumber := htols ((htols p.sequenceNumber + 1) % 4294967296),
    sequenceNumber := htols currentIsn }
  let isn2 := (currentIsn + 1) % 4294967296
  let hl2 := htons q1.headerLength ||| (1 <<< 4)
  let tcpSize := hl2 >>> 12
  let q2 := { q1 with headerLength := htons hl2 }
  let q3 := { q2 with headerChecksum := ipCheckOf q2, checksum := 0 }
  let s1 := etherSumWords 0 (q3.sourceIp ++ q3.destIp)
  let s2 := (s1 + ((q3.protocol &&& 0xff) <<< 8)) % 4294967296
  let s3 := (s2 + (((tcpSize * 4) &&& 0xff) <<< 8)) % 4294967296
  let q4 := { q3 with
    checksum := getEtherChecksum (etherSumWords s3 ((tcpHdrBytes q3).take (tcpSize * 4))) }
  { pkt := q4, isn := isn2,
    sent := [(q4, 14 + (q4.revSize &&& 0xF) * 4 + tcpSize * 4)] }

/-- eth0.c `etherSendTelnetData`: swap addresses and ports, `ack = seq + 1`,
`seq = currentIsn`, `currentIsn += telnetSize`; copy the payload to
`&tcp->data` (byte offset 20 of the TCP region); set the IP total length to
`40 + telnetSize`; recompute both checksums; transmit
`14 + ip header + tcpSize * 4 + telnetSize` octets. -/
def etherSendTelnetData (p : TcpPkt) (currentIsn : Nat) (telnetData : List Nat) : TcpSendResult :=
  let telnetSize := telnetData.length
  let q1 : TcpPkt := { p with
    destAddress := p.sourceAddress,
    sourceAddress := p.destAddress,
    destIp := p.sourceIp,
    sourceIp := p.destIp,
    destPort := p.sourcePort,
    sourcePort := p.destPort,
    ackNumber := htols ((htols p.sequenceNumber + 1) % 4294967296),
    sequenceNumber := htols currentIsn }
  let isn2 := (currentIsn + telnetSize) % 4294967296
  let tcpSize := htons q1.headerLength >>> 12
  let q2 := { q1 with
    headerLength := htons (htons q1.headerLength),
    tcpRest := telnetData ++ q1.tcpRest.drop telnetSize,
    length := htons (40 + telnetSize) }
  let q3 := { q2 with headerChecksum := ipCheckOf q2, checksum := 0 }
  let s1 := etherSumWords 0 (q3.sourceIp ++ q3.destIp)
  let s2 := (s1 + ((q3.protocol &&& 0xff) <<< 8)) % 4294967296
  let s3 := (s2 + (((tcpSize * 4 + telnetSize) &&& 0xff) <<< 8)) % 4294967296
  let q4 := { q3 with
    checksum := getEtherChecksum (etherSumWords
      (etherSumWords s3 ((tcpHdrBytes q3).take (tcpSize * 4)))
      (q3.tcpRest.take telnetSize)) }
  { pkt := q4, isn := isn2,
    sent := [(q4, 14 + (q4.revSize &&& 0xF) * 4 + tcpSize * 4 + telnetSize)] }

/-- eth0.c `etherSendAckFinAck`: swap addresses and ports; `ack = seq + 1`;
`seq = currentIsn++`; set ACK and clear FIN (`|= 1 << 4`, `>> 1`, `<< 1`),
recompute checksums and transmit; then set FIN (`|= 1`), recompute the TCP
checksum and transmit again.  Both frames carry the same sequence number
and size. -/
def etherSendAckFinAck (p : TcpPkt) (currentIsn : Nat) : TcpSendResult :=
  let q1 : TcpPkt := { p with
    destAddress := p.sourceAddress,
    sourceAddress := p.destAddress,
    destIp := p.sourceIp,
    sourceIp := p.destIp,
    destPort := p.sourcePort,
    sourcePort := p.destPort,
    ackNumber := htols ((htols p.sequenceNumber + 1) % 4294967296),
    sequenceNumber := htols currentIsn }
  let isn2 := (currentIsn + 1) % 4294967296
  let hlA := ((htons q1.headerLength ||| (1 <<< 4)) >>> 1) <<< 1
  let tcpSize := hlA >>> 12
  let q2 := { q1 with headerLength := htons hlA }
  let q3 := { q2 with headerChecksum := ipCheckOf q2, checksum := 0 }
  let s1 := etherSumWords 0 (q3.sourceIp ++ q3.destIp)
  let s2 := (s1 + ((q3.protocol &&& 0xff) <<< 8)) % 4294967296
  let s3 := (s2 + (((tcpSize * 4) &&& 0xff) <<< 8)) % 4294967296
  let q4 := { q3 with
    checksum := getEtherChecksum (etherSumWords s3 ((tcpHdrBytes q3).take (tcpSize * 4))) }
  let size1 := 14 + (q4.revSize &&& 0xF) * 4 + tcpSize * 4
  let hlB := htons q4.headerLength ||| 1
  let q5 := { q4 with headerLength := htons hlB, checksum := 0 }
  let q6 := { q5 with
    checksum := getEtherChecksum (etherSumWords s3 ((tcpHdrBytes q5).take (tcpSize * 4))) }
  { pkt := q6, isn := isn2, sent := [(q4, size1), (q6, size1)] }

/-- The TCP branch of the main loop (main.c lines 471-497), entered when
`etherIsTcp` accepted the frame: returns the new `tcp_state`, the new
`currentIsn`, and the frames emitted. -/
def tcpDispatch (tcp_state currentIsn : Nat) (q : TcpPkt) : Nat × Nat × List (TcpPkt × Nat) :=
  if etherIsTcpSYN q then
    let r := etherSendTcpSynAck q currentIsn
    (1, r.isn, r.sent)
  else if etherIsTcpAck currentIsn q && tcp_state == 1 then
    (2, currentIsn, [])
  else if etherIsTelnetData currentIsn q then
    let r := etherSendTelnetData q currentIsn [72, 101, 108, 108, 111]
    (tcp_state, r.isn, r.sent)
  else if etherIsTcpFINACK currentIsn q then
    let r := etherSendAckFinAck q currentIsn
    (3, r.isn, r.sent)
  else if etherIsTcpAck currentIsn q && tcp_state == 1 then
    (6, currentIsn, [])
  else (tcp_state, currentIsn, [])

/-- A concrete received TCP segment template used by the C3 and C6
witnesses: data offset 5, source 192.168.1.1:51000 to 192.168.1.199:23. -/
def c3syn : TcpPkt :=
  { destAddress := [2, 3, 4, 5, 6, 136]
    sourceAddress := [0, 17, 34, 51, 68, 85]
    frameType := htons 0x0800
    revSize := 0x45
    typeOfService := 0
    length := htons 40
    id := 0
    flagsAndOffset := 0
    ttl := 64
    protocol := 6
    headerChecksum := 0
    sourceIp := [192, 168, 1, 1]
    destIp := [192, 168, 1, 199]
    ipOptions := []
    sourcePort := htons 51000
    destPort := htons 23
    sequenceNumber := htols 0x1000
    ackNumber := 0
    headerLength := htons 0x5002
    windowSize := htons 8192
    checksum := 0
    urgent := 0
    tcpRest := [] }

/-- The peer's handshake-completing pure ACK (data offset 5, ACK flag,
ack number 1), used by the C3 witness against `currentIsn = 1`. -/
def c3ack : TcpPkt :=
  { c3syn with
      headerLength := htons 0x5010
      sequenceNumber := htols 0x1001
      ackNumber := htols 1 }

/-- A received FIN|ACK segment (data offset 5, flags FIN and ACK, ack
number 5), used by the C6 witness against `currentIsn = 5`. -/
def c6fin : TcpPkt :=
  { c3syn with
      headerLength := htons 0x5011
      sequenceNumber := htols 0x2000
      ackNumber := htols 5 }

/-! ## UDP receive classifier (eth0.c: etherIsUdp), at byte level

`packet` is the raw frame: Ethernet header at offsets 0-13, IP header at
14 (protocol at 23, source IP at 26), UDP at `14 + (packet[14] & 0xF) * 4`. -/

/-- eth0.c `etherIsUdp`: protocol must be 17, then the 32-bit sum over the
pseudo-header (source/destination IPs, protocol shifted into the high byte,
the UDP length field) and the whole UDP datagram (`ntohs(udp->length)`
bytes) must fold to zero.  A zero checksum field receives no special
treatment. -/
def etherIsUdp (packet : List Nat) : Bool :=
  let prot := packet.getD 23 0
  if prot == 0x11 then
    let us := 14 + (packet.getD 14 0 &&& 0xF) * 4
    let udpLen := htons (packet.getD (us + 4) 0 + 256 * packet.getD (us + 5) 0)
    let s1 := etherSumWords 0 ((packet.drop 26).take 8)
    let s2 := (s1 + ((prot &&& 0xff) <<< 8)) % 4294967296
    let s3 := etherSumWords s2 ((packet.drop (us + 4)).take 2)
    let s4 := etherSumWords s3 ((packet.drop us).take udpLen)
    getEtherChecksum s4 == 0
  else false

/-- The UDP checksum value that verifies: the folded complement of the
pseudo-header and datagram sum with the checksum field left out (this is
also the value the send path stores). -/
def udpVerifyingChecksum (src dst : List Nat) (sp0 sp1 dp0 dp1 l0 l1 : Nat)
    (payload : List Nat) : Nat :=
  getEtherChecksum (wsum false (src ++ dst) + 17 * 256 + (l0 + l1 * 256)
    + (sp0 + sp1 * 256 + dp0 + dp1 * 256 + l0 + l1 * 256) + wsum false payload)

/-- A concrete IPv4/UDP frame to 192.168.1.199 port 1024, payload "on",
whose UDP checksum field is zero (the claimed "no checksum" form). -/
def c7zero : List Nat :=
  [2, 3, 4, 5, 6, 136, 0, 17, 34, 51, 68, 85, 8, 0,
   0x45, 0, 0, 30, 0, 0, 0, 0, 64, 17, 0, 0,
   192, 168, 1, 1, 192, 168, 1, 199,
   4, 0, 4, 0, 0, 10, 0, 0,
   111, 110]

/-- The Ethernet + fixed IP header bytes (26) of the C7 witness frame. -/
def c7hdr26 : List Nat :=
  [2, 3, 4, 5, 6, 136, 0, 17, 34, 51, 68, 85, 8, 0,
   0x45, 0, 0, 30, 0, 0, 0, 0, 64, 17, 0, 0]

/-! ## Console line input (uart0.c: getsUart0)

`USER_DATA` and `MAX_CHARS` live in the missing `uart0.h`; `MAX_CHARS` is
kept as a parameter.  The function is modelled on the stream of received
characters, and its stores into `data->buffer` are returned as
`(index, byte)` pairs in program order. -/

/-- The alphanumeric test of uart0.c `getsUart0`. -/
def isLineAlnum (c : Nat) : Bool :=
  (97 ≤ c && c ≤ 122) || (65 ≤ c && c ≤ 90) || (48 ≤ c && c ≤ 57)

/-- Uppercase folding (`c += 32` for capital letters). -/
def lineToLower (c : Nat) : Nat := if 65 ≤ c && c ≤ 90 then c + 32 else c

/-- uart0.c `getsUart0`: `while ((c = getcUart0()))` exits on a NUL byte;
backspace (127) decrements `charCount` when positive; CR or LF stores a
terminating NUL at `charCount` and returns; an alphanumeric character is
folded to lowercase and stored at `charCount++` with a bound check
(`charCount == MAX_CHARS` stores the terminator at `MAX_CHARS` and
returns); every other character is stored as NUL at `charCount++` with no
bound check. -/
def getsUart0Writes (maxChars : Nat) : Nat → List Nat → List (Nat × Nat)
  | _, [] => []
  | charCount, c :: rest =>
    if c == 0 then []
    else if c == 127 then
      if 0 < charCount then getsUart0Writes maxChars (charCount - 1) rest
      else getsUart0Writes maxChars charCount rest
    else if c == 10 || c == 13 then [(charCount, 0)]
    else if isLineAlnum c then
      (charCount, lineToLower c) ::
        (if charCount + 1 == maxChars then [(charCount + 1, 0)]
         else getsUart0Writes maxChars (charCount + 1) rest)
    else (charCount, 0) :: getsUart0Writes maxChars (charCount + 1) rest

/-! ## DHCP client state machine and timers (main.c; timer.c not in the
sources)

Modelled from the spec: the timer service (`timer.h` declares it; `timer.c`
is not in the repository).  Per spec section 4.6, a slot holds
{mode one-shot/periodic, remaining seconds, reload}; the 1 Hz tick
decrements every active slot and invokes the callback at zero (periodic
slots reload, one-shots are freed); `stopTimer` clears by callback
identity, `stopAllTimers` clears everything; callbacks only set flags.
Ticks are delivered between main-loop iterations (spec section 5: events
"are observed in the next loop pass after they are raised").

The DHCP states follow main.c: STATIC 0, INIT 1, SELECTING 2,
REQUESTING 3, BOUND 4, RENEWING 5, REBINDING 6.  `emitted` logs the
`packet_type` of every `etherSendDhcpPacket` call in order.
`lease * 0.5` and `lease * 0.875` are exact in double precision for every
`uint32_t` lease, so the armed durations are `lease / 2` and
`7 * lease / 8`. -/

structure Slot where
  periodic : Bool
  remaining : Nat
  reload : Nat
deriving DecidableEq

structure Timers where
  discovery : Option Slot
  t1 : Option Slot
  renewing : Option Slot
  t2 : Option Slot
  rebinding : Option Slot
  leaseEnd : Option Slot
  arpResp : Option Slot
  decline : Option Slot

structure Flags where
  sendDhcp : Bool
  renewLease : Bool
  sendRenewRequest : Bool
  sendRebindRequest : Bool
  rebind : Bool
  leaseEnd : Bool
  safeToUseIp : Bool
  dhcpRelease : Bool
  transitionToInit : Bool

structure Sys where
  dhcpState : Nat
  flags : Flags
  timers : Timers
  emitted : List Nat

def noTimers : Timers :=
  { discovery := none, t1 := none, renewing := none, t2 := none,
    rebinding := none, leaseEnd := none, arpResp := none, decline := none }

def noFlags : Flags :=
  { sendDhcp := false, renewLease := false, sendRenewRequest := false,
    sendRebindRequest := false, rebind := false, leaseEnd := false,
    safeToUseIp := false, dhcpRelease := false, transitionToInit := false }

/-- Modelled from the spec: arm a one-shot slot. -/
def startOneshot (seconds : Nat) : Option Slot :=
  some { periodic := false, remaining := seconds, reload := seconds }

/-- Modelled from the spec: arm a periodic slot. -/
def startPeriodic (seconds : Nat) : Option Slot :=
  some { periodic := true, remaining := seconds, reload := seconds }

/-- Modelled from the spec: one 1 Hz tick of a slot; fires when the
remaining count runs out (a slot armed with `s` fires on the s-th tick,
an already-zero slot on the next tick). -/
def tickSlot : Option Slot → Option Slot × Bool
  | none => (none, false)
  | some sl =>
    if sl.remaining ≤ 1 then
      (if sl.periodic then
        some { periodic := true, remaining := sl.reload, reload := sl.reload }
      else none, true)
    else (some { sl with remaining := sl.remaining - 1 }, false)

/-- Modelled from the spec: a 1 Hz tick over all slots; a firing callback
sets its flag (main.c lines 167-197). -/
def tickSys (s : Sys) : Sys :=
  let d := tickSlot s.timers.discovery
  let a := tickSlot s.timers.t1
  let rn := tickSlot s.timers.renewing
  let b := tickSlot s.timers.t2
  let rb := tickSlot s.timers.rebinding
  let le := tickSlot s.timers.leaseEnd
  let ar := tickSlot s.timers.arpResp
  let dc := tickSlot s.timers.decline
  { s with
    timers :=
      { discovery := d.1, t1 := a.1, renewing := rn.1, t2 := b.1,
        rebinding := rb.1, leaseEnd := le.1, arpResp := ar.1, decline := dc.1 },
    flags := { s.flags with
      sendDhcp := s.flags.sendDhcp || d.2,
      renewLease := s.flags.renewLease || a.2,
      sendRenewRequest := s.flags.sendRenewRequest || rn.2,
      rebind := s.flags.rebind || b.2,
      sendRebindRequest := s.flags.sendRebindRequest || rb.2,
      leaseEnd := s.flags.leaseEnd || le.2,
      safeToUseIp := s.flags.safeToUseIp || ar.2,
      transitionToInit := s.flags.transitionToInit || dc.2 } }

/-- Console events that reach the DHCP machine (main.c lines 288-322). -/
inductive ConsoleEvt where
  | dhcpOn : ConsoleEvt
  | dhcpOff : ConsoleEvt
  | release : ConsoleEvt
  | refresh : ConsoleEvt

/-- A received frame, as far as the DHCP machine sees it: a unicast IP
packet, or a broadcast UDP packet with its `isDhcpOffer` result and its
`isDhcpAck` lease (0 when not an ACK). -/
inductive PacketEvt where
  | unicast : PacketEvt
  | bcast : Bool → Nat → PacketEvt

/-- eth0.c `isArpResponse`: implementation remaining, always false. -/
def isArpResponse : Bool := false

/-- Log one `etherSendDhcpPacket(data, t)` call. -/
def emitDhcp (t : Nat) (s : Sys) : Sys := { s with emitted := s.emitted ++ [t] }

/-- main.c console handling: `dhcp on` enters INIT; `dhcp off` reloads the
static identity and stops all timers; `release` and `refresh` raise flags
unless the state is STATIC. -/
def consoleStep (s : Sys) : Option ConsoleEvt → Sys
  | none => s
  | some ConsoleEvt.dhcpOn => { s with dhcpState := 1 }
  | some ConsoleEvt.dhcpOff => { s with dhcpState := 0, timers := noTimers }
  | some ConsoleEvt.release =>
    if s.dhcpState == 0 then s
    else { s with flags := { s.flags with dhcpRelease := true } }
  | some ConsoleEvt.refresh =>
    if s.dhcpState == 0 then s
    else { s with flags := { s.flags with sendRenewRequest := true } }

/-- main.c lines 340-344: in INIT, raise `sendDhcp` and arm the discovery
periodic timer. -/
def initSection (s : Sys) : Sys :=
  if s.dhcpState == 1 then
    { s with flags := { s.flags with sendDhcp := true },
             timers := { s.timers with discovery := startPeriodic 15 } }
  else s

/-- main.c lines 346-350: consume `sendDhcp`, send DISCOVER (type 1),
enter SELECTING. -/
def sendDhcpSection (s : Sys) : Sys :=
  if s.flags.sendDhcp then
    { emitDhcp 1 s with
        dhcpState := 2,
        flags := { s.flags with sendDhcp := false } }
  else s

/-- main.c lines 353-360: `safeToUseIp` in REQUESTING enters BOUND (the
flag is never cleared, as in the source). -/
def safeSection (s : Sys) : Sys :=
  if s.flags.safeToUseIp && s.dhcpState == 3 then { s with dhcpState := 4 }
  else s

/-- main.c lines 362-366: consume `renewLease`, enter RENEWING, arm the
15 s renew periodic timer. -/
def renewSection (s : Sys) : Sys :=
  if s.flags.renewLease then
    { s with
        dhcpState := 5,
        flags := { s.flags with renewLease := false },
        timers := { s.timers with renewing := startPeriodic 15 } }
  else s

/-- main.c lines 368-371: consume `sendRenewRequest` and call
`etherSendDhcpPacket(data, 4)`. -/
def sendRenewSection (s : Sys) : Sys :=
  if s.flags.sendRenewRequest then
    { emitDhcp 4 s with flags := { s.flags with sendRenewRequest := false } }
  else s

/-- main.c lines 373-378: consume `rebind`, stop the renew periodic timer,
enter REBINDING, arm the 15 s rebind periodic timer. -/
def rebindSection (s : Sys) : Sys :=
  if s.flags.rebind then
    { s with
        dhcpState := 6,
        flags := { s.flags with rebind := false },
        timers := { s.timers with
                      renewing := none,
                      rebinding := startPeriodic 15 } }
  else s

/-- main.c lines 380-383: consume `sendRebindRequest` and call
`etherSendDhcpPacket(data, 5)`. -/
def sendRebindSection (s : Sys) : Sys :=
  if s.flags.sendRebindRequest then
    { emitDhcp 5 s with flags := { s.flags with sendRebindRequest := false } }
  else s

/-- main.c lines 386-391: consume `leaseEnd`, stop the rebind periodic
timer, fall back to INIT (the live IP is zeroed in the source). -/
def leaseEndSection (s : Sys) : Sys :=
  if s.flags.leaseEnd then
    { s with
        dhcpState := 1,
        flags := { s.flags with leaseEnd := false },
        timers := { s.timers with rebinding := none } }
  else s

/-- main.c lines 394-405: consume `dhcpRelease`, send RELEASE (type 7),
return to STATIC and stop all timers. -/
def releaseSection (s : Sys) : Sys :=
  if s.flags.dhcpRelease then
    { emitDhcp 7 s with
        dhcpState := 0,
        flags := { s.flags with dhcpRelease := false },
        timers := noTimers }
  else s

/-- main.c lines 408-411: consume `transitionToInit`, enter INIT. -/
def declineSection (s : Sys) : Sys :=
  if s.flags.transitionToInit then
    { s with dhcpState := 1, flags := { s.flags with transitionToInit := false } }
  else s

/-- main.c lines 414-530, the DHCP-relevant packet handling: on a unicast
IP packet only the dead `isArpResponse` decline branch (lines 454-467)
could touch the machine; on a broadcast UDP packet an OFFER in SELECTING
sends REQUEST (type 3) and enters REQUESTING, and an ACK with positive
lease in REQUESTING / RENEWING / REBINDING stops all timers and arms the
T1 (`lease / 2`), T2 (`7 * lease / 8`), lease-expiry (`lease`) and
safe-to-use (2 s) one-shots. -/
def offerStep (s : Sys) (offer : Bool) : Sys :=
  if offer && s.dhcpState == 2 then { emitDhcp 3 s with dhcpState := 3 }
  else s

/-- main.c lines 510-523: the `isDhcpAck` branch. -/
def ackStep (s : Sys) (lease : Nat) : Sys :=
  if lease > 0 && (s.dhcpState == 3 || s.dhcpState == 5 || s.dhcpState == 6) then
    { s with timers :=
        { noTimers with
            t1 := startOneshot (lease / 2),
            t2 := startOneshot (7 * lease / 8),
            leaseEnd := startOneshot lease,
            arpResp := startOneshot 2 } }
  else s

def packetSection (s : Sys) : Option PacketEvt → Sys
  | none => s
  | some PacketEvt.unicast =>
    if isArpResponse then
      { emitDhcp 4 s with
          timers := { noTimers with decline := startOneshot 10 } }
    else s
  | some (PacketEvt.bcast offer lease) => ackStep (offerStep s offer) lease

/-- One pass of the main loop (main.c lines 239-531), in program order. -/
def mainIteration (s : Sys) (ce : Option ConsoleEvt) (pe : Option PacketEvt) : Sys :=
  packetSection (declineSection (releaseSection (leaseEndSection
    (sendRebindSection (rebindSection (sendRenewSection (renewSection
      (safeSection (sendDhcpSection (initSection (consoleStep s ce))))))))))) pe

/-- Boot state (main.c lines 213-225): no flags, no timers, state INIT when
the persisted DHCP flag is set, else STATIC. -/
def initSys (dhcpMode : Bool) : Sys :=
  { dhcpState := if dhcpMode then 1 else 0,
    flags := noFlags, timers := noTimers, emitted := [] }

/-- The states the system can reach: boot, then any interleaving of 1 Hz
ticks (between iterations) and main-loop passes with arbitrary console and
packet events. -/
inductive Reachable : Sys → Prop where
  | boot : ∀ dhcpMode, Reachable (initSys dhcpMode)
  | tick : ∀ s, Reachable s → Reachable (tickSys s)
  | iter : ∀ s ce pe, Reachable s → Reachable (mainIteration s ce pe)

/-! ## DHCP packet construction (eth0.c: etherSendDhcpPacket) -/

/-- Every field eth0.c `etherSendDhcpPacket` writes into the outgoing
frame, plus the size handed to `etherPutPacket` and the updated
`tempIpAddress` global.  Multi-byte scalar fields hold the in-memory
(little-endian) value exactly as the source stores it; `ipLength`,
`ipId` and `udpCheck` stand for the C fields `ip->length`, `ip->id` and
`udp->check`. -/
structure DhcpSend where
  destAddress : List Nat
  sourceAddress : List Nat
  frameType : Nat
  revSize : Nat
  typeOfService : Nat
  ipLength : Nat
  ipId : Nat
  flagsAndOffset : Nat
  ttl : Nat
  protocol : Nat
  headerChecksum : Nat
  sourceIp : List Nat
  destIp : List Nat
  sourcePort : Nat
  destPort : Nat
  udpLength : Nat
  udpCheck : Nat
  op : Nat
  htype : Nat
  hlen : Nat
  hops : Nat
  xid : Nat
  secs : Nat
  flags : Nat
  ciaddr : List Nat
  yiaddr : List Nat
  siaddr : List Nat
  giaddr : List Nat
  chaddr : List Nat
  magicCookie : Nat
  options : List Nat
  sentSize : Nat
  tempIpAddress : List Nat

/-- eth0.c `etherSendDhcpPacket(packet, packet_type)` (lines 1042-1200).
The frame is built in the buffer of the packet just received, so the
`packet_type == 3` path reads the incoming OFFER first: `udp->length`
(in-memory value `inUdpLength`), the options region (`inOptions`) and
`dhcp->yiaddr` (`inYiaddr`).  `udp->length - 248` wraps on `uint16_t`, and
`getOption` takes its size as `uint8_t`, truncating `opSiz` mod 256; the
source dereferences the returned pointers blindly (a missing option is a
NULL dereference), modelled by reading at the found index with
`List.getD ... 0`. -/
def etherSendDhcpPacket (macAddress ipAddress serverIpAddress serverMacAddress
    tempIpAddress : List Nat) (inUdpLength : Nat) (inOptions : List Nat)
    (inYiaddr : List Nat) (packet_type : Nat) : DhcpSend :=
  let unicast := packet_type == 5 || packet_type == 7
  let destAddress := if unicast then serverMacAddress else List.replicate 6 255
  let sourceIp := if unicast then ipAddress else [0, 0, 0, 0]
  let destIp := if unicast then serverIpAddress else [255, 255, 255, 255]
  let flags := if unicast then 0 else htons 0x8000
  let opSiz := htons ((inUdpLength + 65536 - 248) % 65536)
  let o54 := (getOption inOptions 54 (opSiz % 256)).getD 0
  let o51 := (getOption inOptions 51 (opSiz % 256)).getD 0
  let t1 := inOptions.getD o54 0
  let t2 := inOptions.getD (o54 + 1) 0
  let t3 := inOptions.getD (o54 + 2) 0
  let t4 := inOptions.getD (o54 + 3) 0
  let t5 := inOptions.getD o51 0
  let t6 := inOptions.getD (o51 + 1) 0
  let t7 := inOptions.getD (o51 + 2) 0
  let t8 := inOptions.getD (o51 + 3) 0
  let dhcp_packet_type := if packet_type == 5 || packet_type == 6 then 3 else packet_type
  let opts1 := putOption [] 53 1 [dhcp_packet_type]
  let opts2 := putOption opts1 55 5 [1, 2, 3, 6, 51]
  let opts3 := opts2 ++ [61, 7, 1] ++ macAddress
  let opts4 :=
    if packet_type == 3 then
      putOption (putOption (opts3 ++ [50, 4] ++ inYiaddr) 51 4 [t5, t6, t7, t8])
        54 4 [t1, t2, t3, t4]
    else opts3
  let options := opts4 ++ [255]
  let opSize := options.length
  let chaddr := macAddress ++ List.replicate 10 0
  let ciaddr := if 4 < packet_type then ipAddress else [0, 0, 0, 0]
  let udpSize := 240 + opSize
  let ipLength := htons ((0x45 &&& 0xF) * 4 + 8 + udpSize)
  let hdr10 := [0x45, 0] ++ bytes16 ipLength ++ bytes16 0 ++ bytes16 0 ++ [64, 17]
  let s1 := etherSumWords (etherSumWords 0 hdr10)
    (((sourceIp ++ destIp).take ((0x45 &&& 0xF) * 4 - 12)))
  let headerChecksum := getEtherChecksum s1
  let udpLength := htons (8 + udpSize)
  let dhcpBytes := [1, 1, 6, 0] ++ bytes32 0 ++ bytes16 0 ++ bytes16 flags
    ++ ciaddr ++ [0, 0, 0, 0] ++ [0, 0, 0, 0] ++ [0, 0, 0, 0]
    ++ chaddr ++ List.replicate 192 0 ++ bytes32 (htols 0x63825363) ++ options
  let s2 := etherSumWords 0 ((sourceIp ++ destIp).take 8)
  let s2b := (s2 + ((17 &&& 0xff) <<< 8)) % 4294967296
  let s2c := etherSumWords s2b (bytes16 udpLength)
  let s2d := etherSumWords s2c (bytes16 (htons 68) ++ bytes16 (htons 67) ++ bytes16 udpLength)
  let s2e := etherSumWords s2d (dhcpBytes.take udpSize)
  { destAddress := destAddress,
    sourceAddress := macAddress,
    frameType := htons 0x0800,
    revSize := 0x45,
    typeOfService := 0,
    ipLength := ipLength,
    ipId := 0,
    flagsAndOffset := 0,
    ttl := 64,
    protocol := 17,
    headerChecksum := headerChecksum,
    sourceIp := sourceIp,
    destIp := destIp,
    sourcePort := htons 68,
    destPort := htons 67,
    udpLength := udpLength,
    udpCheck := getEtherChecksum s2e,
    op := 1,
    htype := 1,
    hlen := 6,
    hops := 0,
    xid := 0,
    secs := 0,
    flags := flags,
    ciaddr := ciaddr,
    yiaddr := [0, 0, 0, 0],
    siaddr := [0, 0, 0, 0],
    giaddr := [0, 0, 0, 0],
    chaddr := chaddr,
    magicCookie := htols 0x63825363,
    options := options,
    sentSize := 14 + (0x45 &&& 0xF) * 4 + 8 + udpSize,
    tempIpAddress := if packet_type == 3 then inYiaddr else tempIpAddress }

/-- A BOUND state whose T1 one-shot is one second from firing, with the
T2 and lease-expiry one-shots still pending (as armed by a 600 s lease
ACK, 299 s later). -/
def c1bound : Sys :=
  { dhcpState := 4,
    flags := noFlags,
    timers := { noTimers with
                  t1 := some { periodic := false, remaining := 1, reload := 300 },
                  t2 := some { periodic := false, remaining := 226, reload := 525 },
                  leaseEnd := some { periodic := false, remaining := 301, reload := 600 } },
    emitted := [] }

/-- The packet the renew path actually sends: the main loop's
`sendRenewRequest` handler calls `etherSendDhcpPacket(data, 4)`
(main.c line 369), here with MAC 02:03:04:05:06:88, live IP 10.0.0.42,
learned server 10.0.0.1 at 00:50:ab:0c:34:61. -/
def c1pkt : DhcpSend :=
  etherSendDhcpPacket [2, 3, 4, 5, 6, 136] [10, 0, 0, 42] [10, 0, 0, 1]
    [0, 80, 171, 12, 52, 97] [0, 0, 0, 0] 0 [] [] 4

/-- The remaining seconds of an optional timer slot (0 when unarmed). -/
def remOf : Option Slot → Nat
  | none => 0
  | some sl => sl.remaining

/-- Whether an optional timer slot is periodic (false when unarmed). -/
def periodicOf : Option Slot → Bool
  | none => false
  | some sl => sl.periodic

/-- The inductive invariant of the DHCP machine: the T1 one-shot and the
rebind periodic timer are never both armed; whenever T1 is armed, T2 is
armed too, expires no earlier, and T1 is a one-shot; and whenever the
`rebind` flag is pending, T1 is already gone. -/
def DhcpInv (s : Sys) : Prop :=
  (s.timers.t1 = none ∨ s.timers.rebinding = none)
  ∧ (s.timers.t1.isSome = true →
      s.timers.t2.isSome = true
        ∧ remOf s.timers.t1 ≤ remOf s.timers.t2
        ∧ periodicOf s.timers.t1 = false)
  ∧ (s.flags.rebind = true → s.timers.t1 = none)

/-! ## Theorems -/

theorem and_byte_shift (v k : Nat) : v &&& ((2^8 - 1) <<< k) = ((v >>> k) % 2^8) <<< k := by
  apply Nat.eq_of_testBit_eq
  intro i
  simp only [Nat.testBit_and, Nat.testBit_shiftLeft, Nat.testBit_two_pow_sub_one,
    Nat.testBit_mod_two_pow, Nat.testBit_shiftRight, ge_iff_le]
  rcases Nat.lt_or_ge i k with h | h
  · have h1 : ¬ (k ≤ i) := by omega
    simp [h1]
  · have h2 : k + (i - k) = i := by omega
    simp [h, h2]
    rw [Bool.and_comm]

theorem htons_eq (v : Nat) : htons v = v / 256 % 256 + (v % 256) * 256 := by
  unfold htons
  rw [show (0xFF00 : Nat) = (2^8 - 1) <<< 8 from by decide,
      show (0x00FF : Nat) = (2^8 - 1) <<< 0 from by decide,
      and_byte_shift, and_byte_shift]
  simp only [Nat.shiftLeft_eq, Nat.shiftRight_eq_div_pow, Nat.pow_zero, Nat.div_one, Nat.mul_one]
  norm_num

theorem bytes_or (a b c d : Nat) (hb : b < 256) (hc : c < 256) (hd : d < 256) :
    ((a * 16777216) ||| (b * 65536)) ||| (c * 256) ||| d
      = a * 16777216 + b * 65536 + c * 256 + d := by
  have e1 : a * 16777216 ||| b * 65536 = a * 16777216 + b * 65536 := by
    rw [show a * 16777216 = 2^24 * a from by ring]
    have p24 : (2:Nat)^24 = 16777216 := by norm_num
    rw [← Nat.mul_add_lt_is_or (show b * 65536 < 2^24 from by omega) a]
  rw [e1]
  have e2 : a * 16777216 + b * 65536 ||| c * 256
      = a * 16777216 + b * 65536 + c * 256 := by
    rw [show a * 16777216 + b * 65536 = 2^16 * (a * 256 + b) from by ring]
    have p16 : (2:Nat)^16 = 65536 := by norm_num
    rw [← Nat.mul_add_lt_is_or (show c * 256 < 2^16 from by omega) (a * 256 + b)]
  rw [e2]
  rw [show a * 16777216 + b * 65536 + c * 256 = 2^8 * (a * 65536 + b * 256 + c) from by ring]
  have p8 : (2:Nat)^8 = 256 := by norm_num
  rw [← Nat.mul_add_lt_is_or (show d < 2^8 from by omega) (a * 65536 + b * 256 + c)]

theorem htols_eq (v : Nat) :
    htols v = (v % 256) * 16777216 + (v / 256 % 256) * 65536 + (v / 65536 % 256) * 256
      + v / 16777216 % 256 := by
  unfold htols
  rw [show (0xff000000 : Nat) = (2^8 - 1) <<< 24 from by decide,
      show (0x00ff0000 : Nat) = (2^8 - 1) <<< 16 from by decide,
      show (0x0000ff00 : Nat) = (2^8 - 1) <<< 8 from by decide,
      show (0x000000ff : Nat) = (2^8 - 1) <<< 0 from by decide,
      and_byte_shift, and_byte_shift, and_byte_shift, and_byte_shift]
  simp only [Nat.shiftLeft_eq, Nat.shiftRight_eq_div_pow, Nat.pow_zero, Nat.div_one, Nat.mul_one]
  norm_num
  rw [show v / 65536 % 256 * 65536 / 256 = v / 65536 % 256 * 256 from by omega,
      show v / 256 % 256 * 256 * 256 = v / 256 % 256 * 65536 from by ring]
  exact bytes_or (v % 256) (v / 256 % 256) (v / 65536 % 256) (v / 16777216 % 256)
    (Nat.mod_lt _ (by norm_num)) (Nat.mod_lt _ (by norm_num)) (Nat.mod_lt _ (by norm_num))

theorem htols_digits (a b c d : Nat) (ha : a < 256) (hb : b < 256) (hc : c < 256)
    (hd : d < 256) :
    htols (a * 16777216 + b * 65536 + c * 256 + d)
      = d * 16777216 + c * 65536 + b * 256 + a := by
  rw [htols_eq]
  omega

theorem htols_lt (v : Nat) : htols v < 2^32 := by
  rw [htols_eq]
  have a := Nat.mod_lt (v / 16777216) (show 0 < 256 by norm_num)
  have b := Nat.mod_lt (v / 65536) (show 0 < 256 by norm_num)
  have c := Nat.mod_lt (v / 256) (show 0 < 256 by norm_num)
  have d := Nat.mod_lt v (show 0 < 256 by norm_num)
  norm_num
  omega

theorem htols_htols (v : Nat) (h : v < 4294967296) : htols (htols v) = v := by
  rw [htols_eq v]
  rw [htols_digits _ _ _ _ (Nat.mod_lt _ (by norm_num)) (Nat.mod_lt _ (by norm_num))
    (Nat.mod_lt _ (by norm_num)) (Nat.mod_lt _ (by norm_num))]
  have b1 : v / 256 / 256 = v / 65536 := by
    rw [Nat.div_div_eq_div_mul]
  have b2 : v / 65536 / 256 = v / 16777216 := by
    rw [Nat.div_div_eq_div_mul]
  omega

theorem htons_digits (q r : Nat) (hq : q < 256) (hr : r < 256) :
    htons (q + r * 256) = r + q * 256 := by
  rw [htons_eq]
  omega

theorem htons_htons (v : Nat) (h : v < 65536) : htons (htons v) = v := by
  rw [htons_eq v]
  rw [htons_digits _ _ (Nat.mod_lt _ (by norm_num)) (Nat.mod_lt _ (by norm_num))]
  omega

theorem htons_lt (v : Nat) : htons v < 2^16 := by
  rw [htons_eq]
  have c := Nat.mod_lt (v / 256) (show 0 < 256 by norm_num)
  have d := Nat.mod_lt v (show 0 < 256 by norm_num)
  norm_num
  omega

theorem foldCarryAux_lt (f : Nat) : ∀ s, s ≤ f → foldCarryAux f s < 65536 := by
  induction f with
  | zero =>
    intro s hs
    have : s = 0 := Nat.le_zero.mp hs
    simp [this, foldCarryAux]
  | succ f ih =>
    intro s hs
    unfold foldCarryAux
    by_cases h : s < 65536
    · simp [h]
    · simp [h]
      apply ih
      omega

theorem foldCarry_lt (s : Nat) : foldCarry s < 65536 :=
  foldCarryAux_lt s s (Nat.le_refl s)

theorem foldCarryAux_modeq (f : Nat) : ∀ s, foldCarryAux f s % 65535 = s % 65535 := by
  induction f with
  | zero => intro s; rfl
  | succ f ih =>
    intro s
    unfold foldCarryAux
    by_cases h : s < 65536
    · simp [h]
    · simp [h]
      rw [ih]
      omega

theorem foldCarry_modeq (s : Nat) : foldCarry s % 65535 = s % 65535 :=
  foldCarryAux_modeq s s

theorem foldCarryAux_pos (f : Nat) : ∀ s, 0 < s → 0 < foldCarryAux f s := by
  induction f with
  | zero => intro s hs; simpa [foldCarryAux]
  | succ f ih =>
    intro s hs
    unfold foldCarryAux
    by_cases h : s < 65536
    · simpa [h]
    · simp [h]
      apply ih
      omega

theorem foldCarry_pos (s : Nat) (h : 0 < s) : 0 < foldCarry s :=
  foldCarryAux_pos s s h

/-- The central checksum identity: re-adding the complement of a folded sum
makes the total fold to `0xFFFF`, so the final complement is zero. -/
theorem checksum_complement_zero (S : Nat) :
    getEtherChecksum (S + (65535 - foldCarry S)) = 0 := by
  unfold getEtherChecksum
  rcases Nat.eq_zero_or_pos S with h0 | hpos
  · subst h0
    decide
  · have hfltS := foldCarry_lt S
    have hmS := foldCarry_modeq S
    have hT : 0 < S + (65535 - foldCarry S) := by omega
    have hfltT := foldCarry_lt (S + (65535 - foldCarry S))
    have hmT := foldCarry_modeq (S + (65535 - foldCarry S))
    have hposT := foldCarry_pos _ hT
    omega

theorem sumWordsFrom_eq_wsum (bs : List Nat) : ∀ p s, s + wsum p bs < 4294967296 →
    sumWordsFrom s p bs = s + wsum p bs := by
  induction bs with
  | nil =>
    intro p s h
    cases p <;> simp [sumWordsFrom, wsum]
  | cons b bs ih =>
    intro p s h
    cases p with
    | false =>
      have hw : wsum false (b :: bs) = b + wsum true bs := rfl
      rw [hw] at h
      unfold sumWordsFrom
      rw [Nat.mod_eq_of_lt (by omega)]
      rw [ih true (s + b) (by omega), hw]
      ring
    | true =>
      have hw : wsum true (b :: bs) = b * 256 + wsum false bs := rfl
      rw [hw] at h
      unfold sumWordsFrom
      rw [Nat.mod_eq_of_lt (by omega)]
      rw [ih false (s + b * 256) (by omega), hw]
      ring

theorem wsum_le (bs : List Nat) : ∀ p, (∀ b ∈ bs, b < 256) →
    wsum p bs ≤ 65280 * bs.length := by
  induction bs with
  | nil => intro p h; simp [wsum]
  | cons b bs ih =>
    intro p h
    have hb : b < 256 := h b (List.mem_cons_self b bs)
    have hrest : ∀ x ∈ bs, x < 256 := fun x hx => h x (List.mem_cons_of_mem b hx)
    cases p with
    | false =>
      have := ih true hrest
      simp only [wsum, List.length_cons]
      omega
    | true =>
      have := ih false hrest
      simp only [wsum, List.length_cons]
      omega

theorem wsum_append (xs : List Nat) : ∀ ys p,
    wsum p (xs ++ ys) = wsum p xs + wsum (if xs.length % 2 = 0 then p else !p) ys := by
  induction xs with
  | nil => intro ys p; simp [wsum]
  | cons x xs ih =>
    intro ys p
    by_cases he : xs.length % 2 = 0
    · have hodd : ¬ ((x :: xs).length % 2 = 0) := by
        simp only [List.length_cons]; omega
      rw [if_neg hodd]
      cases p with
      | false =>
        show x + wsum true (xs ++ ys) = x + wsum true xs + wsum (!false) ys
        rw [ih ys true, if_pos he]
        simp only [Bool.not_false]
        omega
      | true =>
        show x * 256 + wsum false (xs ++ ys) = x * 256 + wsum false xs + wsum (!true) ys
        rw [ih ys false, if_pos he]
        simp only [Bool.not_true]
        omega
    · have heven : (x :: xs).length % 2 = 0 := by
        simp only [List.length_cons]; omega
      rw [if_pos heven]
      cases p with
      | false =>
        show x + wsum true (xs ++ ys) = x + wsum true xs + wsum false ys
        rw [ih ys true, if_neg he]
        simp only [Bool.not_true]
        omega
      | true =>
        show x * 256 + wsum false (xs ++ ys) = x * 256 + wsum false xs + wsum true ys
        rw [ih ys false, if_neg he]
        simp only [Bool.not_false]
        omega

theorem wsum_append_even (xs ys : List Nat) (h : xs.length % 2 = 0) :
    wsum false (xs ++ ys) = wsum false xs + wsum false ys := by
  rw [wsum_append xs ys false, if_pos h]

/-- Split a list of length at least 12 around its bytes 10 and 11. -/
theorem list_split12 (l : List Nat) (h : 12 ≤ l.length) :
    l = l.take 10 ++ [l.getD 10 0, l.getD 11 0] ++ l.drop 12 := by
  have h10 : 10 < l.length := by omega
  have h11 : 11 < l.length := by omega
  have d10 : l.drop 10 = l.get ⟨10, h10⟩ :: l.drop 11 := List.drop_eq_getElem_cons h10
  have d11 : l.drop 11 = l.get ⟨11, h11⟩ :: l.drop 12 := List.drop_eq_getElem_cons h11
  have g10 : l.getD 10 0 = l.get ⟨10, h10⟩ := by
    simp [List.getD_eq_getElem?_getD, List.getElem?_eq_getElem h10]
  have g11 : l.getD 11 0 = l.get ⟨11, h11⟩ := by
    simp [List.getD_eq_getElem?_getD, List.getElem?_eq_getElem h11]
  conv_lhs => rw [← List.take_append_drop 10 l]
  rw [d10, d11, g10, g11]
  simp

theorem etherCalcIpChecksum_resum (hdr : List Nat)
    (hbytes : ∀ b ∈ hdr, b < 256)
    (hlen : (hdr.getD 0 0 &&& 0xF) * 4 = hdr.length)
    (h20 : 20 ≤ hdr.length) :
    getEtherChecksum (etherSumWords 0 (etherCalcIpChecksum hdr)) = 0 := by
  have hnib : hdr.getD 0 0 &&& 0xF ≤ 15 := Nat.and_le_right
  have h60 : hdr.length ≤ 60 := by omega
  have hlt10 : hdr.take 10 ⊆ hdr := List.take_subset 10 hdr
  have hld : hdr.drop 12 ⊆ hdr := List.drop_subset 12 hdr
  have hbt : ∀ b ∈ hdr.take 10, b < 256 := fun b hb => hbytes b (hlt10 hb)
  have hbd : ∀ b ∈ hdr.drop 12, b < 256 := fun b hb => hbytes b (hld hb)
  have hlt10len : (hdr.take 10).length = 10 := by
    rw [List.length_take]
    omega
  have hldlen : (hdr.drop 12).length = hdr.length - 12 := List.length_drop 12 hdr
  have htake : (hdr.drop 12).take ((hdr.getD 0 0 &&& 0xF) * 4 - 12) = hdr.drop 12 := by
    apply List.take_of_length_le
    omega
  have hw10 := wsum_le (hdr.take 10) false hbt
  have hwd := wsum_le (hdr.drop 12) false hbd
  rw [hlt10len] at hw10
  rw [hldlen] at hwd
  have e1 : etherSumWords 0 (hdr.take 10) = wsum false (hdr.take 10) := by
    unfold etherSumWords
    rw [sumWordsFrom_eq_wsum _ false 0 (by omega)]
    omega
  have e2 : etherSumWords (wsum false (hdr.take 10)) (hdr.drop 12)
      = wsum false (hdr.take 10) + wsum false (hdr.drop 12) := by
    unfold etherSumWords
    rw [sumWordsFrom_eq_wsum _ false _ (by omega)]
  unfold etherCalcIpChecksum
  rw [htake, e1, e2]
  set S := wsum false (hdr.take 10) + wsum false (hdr.drop 12) with hS
  set c := getEtherChecksum S with hc
  have hcle : c ≤ 65535 := by
    rw [hc]
    unfold getEtherChecksum
    omega
  have hball : ∀ b ∈ hdr.take 10 ++ [c % 256, c / 256] ++ hdr.drop 12, b < 256 := by
    intro b hb
    rcases List.mem_append.mp hb with hb1 | hb2
    · rcases List.mem_append.mp hb1 with hb3 | hb4
      · exact hbt b hb3
      · have hbv : b = c % 256 ∨ b = c / 256 := by simpa using hb4
        rcases hbv with h | h <;> omega
    · exact hbd b hb2
  have hwall := wsum_le _ false hball
  have hlenall : (hdr.take 10 ++ [c % 256, c / 256] ++ hdr.drop 12).length
      = 10 + 2 + (hdr.length - 12) := by
    simp [List.length_append, hlt10len, hldlen]
    omega
  rw [hlenall] at hwall
  have hresum : etherSumWords 0 (hdr.take 10 ++ [c % 256, c / 256] ++ hdr.drop 12)
      = wsum false (hdr.take 10 ++ [c % 256, c / 256] ++ hdr.drop 12) := by
    unfold etherSumWords
    rw [sumWordsFrom_eq_wsum _ false 0 (by omega)]
    omega
  rw [hresum]
  rw [List.append_assoc]
  rw [wsum_append_even _ _ (by rw [hlt10len])]
  rw [wsum_append_even [c % 256, c / 256] _ (by simp)]
  have hmid : wsum false [c % 256, c / 256] = c := by
    show c % 256 + (c / 256 * 256 + 0) = c
    omega
  rw [hmid]
  have hgoal : wsum false (hdr.take 10) + (c + wsum false (hdr.drop 12))
      = S + (65535 - foldCarry S) := by
    rw [hc]
    unfold getEtherChecksum
    rw [hS]
    omega
  rw [hgoal]
  exact checksum_complement_zero S


/-- C2: for every well-formed IPv4 header whose on-wire checksum is correct
(its checksum bytes are exactly what the builder `etherCalcIpChecksum`
produces, i.e. the bit-inverted fold of the other header bytes), resetting
the accumulator, feeding the header to the word summer and folding yields
zero; and for every header, the builder's output re-sums and folds to zero. -/
theorem claim2_ip_checksum (hdr : List Nat)
    (hbytes : ∀ b ∈ hdr, b < 256)
    (hlen : (hdr.getD 0 0 &&& 0xF) * 4 = hdr.length)
    (h20 : 20 ≤ hdr.length) :
    getEtherChecksum (etherSumWords 0 (etherCalcIpChecksum hdr)) = 0
    ∧ (hdr.getD 10 0 = (etherCalcIpChecksum hdr).getD 10 0
      → hdr.getD 11 0 = (etherCalcIpChecksum hdr).getD 11 0
      → getEtherChecksum (etherSumWords 0 hdr) = 0) := by
  constructor
  · exact etherCalcIpChecksum_resum hdr hbytes hlen h20
  · intro h10 h11
    have hA : (hdr.take 10).length = 10 := by
      rw [List.length_take]
      omega
    set c := getEtherChecksum (etherSumWords (etherSumWords 0 (hdr.take 10))
      ((hdr.drop 12).take ((hdr.getD 0 0 &&& 0xF) * 4 - 12))) with hcdef
    have hcalc : etherCalcIpChecksum hdr
        = hdr.take 10 ++ [c % 256, c / 256] ++ hdr.drop 12 := by
      rw [hcdef]
      rfl
    have hlen12 : (hdr.take 10 ++ [c % 256, c / 256]).length = 12 := by
      simp [List.length_append, hA]
    have g10 : (etherCalcIpChecksum hdr).getD 10 0 = c % 256 := by
      rw [hcalc, List.getD_append _ _ _ _ (by omega)]
      rw [List.getD_append_right _ _ _ _ (by omega)]
      rw [hA]
      simp
    have g11 : (etherCalcIpChecksum hdr).getD 11 0 = c / 256 := by
      rw [hcalc, List.getD_append _ _ _ _ (by omega)]
      rw [List.getD_append_right _ _ _ _ (by omega)]
      rw [hA]
      simp
    have hEq : hdr = etherCalcIpChecksum hdr := by
      rw [hcalc]
      conv_lhs => rw [list_split12 hdr (by omega)]
      rw [h10, g10, h11, g11]
    conv_lhs => rw [hEq]
    exact etherCalcIpChecksum_resum hdr hbytes hlen h20

/-- Witness for C2 at the concrete header `c2hdr`. -/
theorem claim2_ip_checksum_witness :
    (∀ b ∈ c2hdr, b < 256) ∧ (c2hdr.getD 0 0 &&& 0xF) * 4 = c2hdr.length
    ∧ 20 ≤ c2hdr.length
    ∧ (getEtherChecksum (etherSumWords 0 (etherCalcIpChecksum c2hdr)) = 0
      ∧ (c2hdr.getD 10 0 = (etherCalcIpChecksum c2hdr).getD 10 0
        → c2hdr.getD 11 0 = (etherCalcIpChecksum c2hdr).getD 11 0
        → getEtherChecksum (etherSumWords 0 c2hdr) = 0)) :=
  ⟨by decide, by decide, by decide,
    claim2_ip_checksum c2hdr (by decide) (by decide) (by decide)⟩


theorem encodeOptions_append (ts us : List (Nat × Nat × List Nat)) :
    encodeOptions (ts ++ us) = encodeOptions ts ++ encodeOptions us := by
  induction ts with
  | nil => simp [encodeOptions]
  | cons t ts ih =>
    obtain ⟨n, c, vs⟩ := t
    simp [encodeOptions, ih]

theorem getOptionAux_encode (number : Nat) (ts : List (Nat × Nat × List Nat)) :
    ∀ pre : List Nat, (∀ t ∈ ts, t.2.2.length = t.2.1) →
    getOptionAux (pre ++ encodeOptions ts) number (pre ++ encodeOptions ts).length
      pre.length = scanSpec number ts pre.length := by
  induction ts with
  | nil =>
    intro pre hwf
    unfold getOptionAux
    simp [encodeOptions, scanSpec]
  | cons t ts ih =>
    obtain ⟨n, c, vs⟩ := t
    intro pre hwf
    have hvs : vs.length = c := hwf (n, c, vs) (List.mem_cons_self _ _)
    have hwfrest : ∀ t ∈ ts, t.2.2.length = t.2.1 :=
      fun t ht => hwf t (List.mem_cons_of_mem _ ht)
    have hsize : (pre ++ encodeOptions ((n, c, vs) :: ts)).length
        = pre.length + (c + 2 + (encodeOptions ts).length) := by
      simp [encodeOptions, List.length_append, hvs]
      omega
    have hget0 : (pre ++ encodeOptions ((n, c, vs) :: ts)).getD pre.length 0 = n := by
      rw [List.getD_append_right _ _ _ _ (Nat.le_refl _)]
      simp [encodeOptions]
    have hget1 : (pre ++ encodeOptions ((n, c, vs) :: ts)).getD (pre.length + 1) 0 = c := by
      rw [List.getD_append_right _ _ _ _ (by omega)]
      simp [encodeOptions]
    unfold getOptionAux
    rw [dif_pos (by omega)]
    rw [hget0, hget1]
    by_cases hn : n = number
    · simp [hn, scanSpec]
    · have hbeq : (n == number) = false := by
        simp [hn]
      rw [hbeq]
      simp only [Bool.false_eq_true, if_false]
      have hR : pre ++ encodeOptions ((n, c, vs) :: ts)
          = (pre ++ n :: c :: vs) ++ encodeOptions ts := by
        simp [encodeOptions]
      have hlen2 : (pre ++ n :: c :: vs).length = pre.length + c + 2 := by
        simp [List.length_append, hvs]
        omega
      rw [hR]
      rw [show pre.length + c + 2 = (pre ++ n :: c :: vs).length from hlen2.symm]
      rw [ih (pre ++ n :: c :: vs) hwfrest]
      rw [hlen2]
      simp [scanSpec, hn]

theorem scanSpec_none (number : Nat) (ts : List (Nat × Nat × List Nat))
    (h : ∀ t ∈ ts, t.1 ≠ number) : ∀ base, scanSpec number ts base = none := by
  induction ts with
  | nil => intro base; rfl
  | cons t ts ih =>
    obtain ⟨n, c, vs⟩ := t
    intro base
    have hn : n ≠ number := h (n, c, vs) (List.mem_cons_self _ _)
    have hrest : ∀ t ∈ ts, t.1 ≠ number := fun t ht => h t (List.mem_cons_of_mem _ ht)
    simp [scanSpec, hn, ih hrest]

theorem scanSpec_found (number : Nat) (pre : List (Nat × Nat × List Nat))
    (suf : List (Nat × Nat × List Nat)) (c : Nat) (vs : List Nat)
    (hpre : ∀ t ∈ pre, t.1 ≠ number)
    (hwfpre : ∀ t ∈ pre, t.2.2.length = t.2.1) :
    ∀ base, scanSpec number (pre ++ (number, c, vs) :: suf) base
      = some (base + (encodeOptions pre).length + 2) := by
  induction pre with
  | nil =>
    intro base
    simp [scanSpec, encodeOptions]
  | cons t pre ih =>
    obtain ⟨n, c2, vs2⟩ := t
    intro base
    have hn : n ≠ number := hpre (n, c2, vs2) (List.mem_cons_self _ _)
    have hvs2 : vs2.length = c2 := hwfpre (n, c2, vs2) (List.mem_cons_self _ _)
    have hprerest : ∀ t ∈ pre, t.1 ≠ number :=
      fun t ht => hpre t (List.mem_cons_of_mem _ ht)
    have hwfrest : ∀ t ∈ pre, t.2.2.length = t.2.1 :=
      fun t ht => hwfpre t (List.mem_cons_of_mem _ ht)
    have hstep := ih hprerest hwfrest (base + c2 + 2)
    simp only [List.cons_append, scanSpec, hn, if_neg, ne_eq, not_false_iff,
      List.append_eq]
    rw [hstep]
    have : base + c2 + 2 + (encodeOptions pre).length + 2
        = base + (encodeOptions ((n, c2, vs2) :: pre)).length + 2 := by
      simp [encodeOptions, List.length_append, hvs2]
      omega
    rw [this]

/-- C8: on a well-formed options region laid out by `putOption`
(`encodeOptions`), appending one more option is exactly a `putOption` call;
scanning with `getOption` for a number that was written returns the index of
the value bytes of the first option carrying that number (and those bytes
are the first value written for it); scanning for a number that was never
written returns null. -/
theorem claim8_options_roundtrip (ts : List (Nat × Nat × List Nat))
    (hwf : ∀ t ∈ ts, t.2.2.length = t.2.1) (number : Nat) :
    (∀ n c vs, putOption (encodeOptions ts) n c vs = encodeOptions (ts ++ [(n, c, vs)]))
    ∧ (∀ pre c vs suf, ts = pre ++ (number, c, vs) :: suf
        → (∀ t ∈ pre, t.1 ≠ number)
        → getOption (encodeOptions ts) number (encodeOptions ts).length
            = some ((encodeOptions pre).length + 2)
          ∧ ((encodeOptions ts).drop ((encodeOptions pre).length + 2)).take vs.length = vs)
    ∧ ((∀ t ∈ ts, t.1 ≠ number) →
        getOption (encodeOptions ts) number (encodeOptions ts).length = none) := by
  have hscan : getOption (encodeOptions ts) number (encodeOptions ts).length
      = scanSpec number ts 0 := by
    have h := getOptionAux_encode number ts [] hwf
    simpa [getOption] using h
  refine ⟨?_, ?_, ?_⟩
  · intro n c vs
    simp [putOption, encodeOptions_append, encodeOptions]
  · intro pre c vs suf hts hpre
    have hwfpre : ∀ t ∈ pre, t.2.2.length = t.2.1 := by
      intro t ht
      exact hwf t (by rw [hts]; exact List.mem_append_left _ ht)
    constructor
    · rw [hscan, hts]
      rw [scanSpec_found number pre suf c vs hpre hwfpre 0]
      norm_num
    · rw [hts, encodeOptions_append]
      have hsplit : encodeOptions pre ++ encodeOptions ((number, c, vs) :: suf)
          = (encodeOptions pre ++ [number, c]) ++ (vs ++ encodeOptions suf) := by
        simp [encodeOptions]
      rw [hsplit]
      rw [show ((encodeOptions pre ++ [number, c]) ++ (vs ++ encodeOptions suf)).drop
            ((encodeOptions pre).length + 2) = vs ++ encodeOptions suf
          from List.drop_left' (by simp)]
      exact List.take_left vs (encodeOptions suf)
  · intro hnone
    rw [hscan]
    exact scanSpec_none number ts hnone 0

/-- Witness for C8 on the concrete region `c8opts`, scanning for 55. -/
theorem claim8_options_roundtrip_witness :
    (∀ t ∈ c8opts, t.2.2.length = t.2.1)
    ∧ ((∀ n c vs, putOption (encodeOptions c8opts) n c vs
          = encodeOptions (c8opts ++ [(n, c, vs)]))
      ∧ (∀ pre c vs suf, c8opts = pre ++ (55, c, vs) :: suf
          → (∀ t ∈ pre, t.1 ≠ 55)
          → getOption (encodeOptions c8opts) 55 (encodeOptions c8opts).length
              = some ((encodeOptions pre).length + 2)
            ∧ ((encodeOptions c8opts).drop
                ((encodeOptions pre).length + 2)).take vs.length = vs)
      ∧ ((∀ t ∈ c8opts, t.1 ≠ 55) →
          getOption (encodeOptions c8opts) 55 (encodeOptions c8opts).length = none)) :=
  ⟨by decide, claim8_options_roundtrip c8opts (by decide) 55⟩


theorem list_eq_four {l : List Nat} (h : l.length = 4) :
    ∃ a b c d, l = [a, b, c, d] := by
  rcases l with _ | ⟨a, _ | ⟨b, _ | ⟨c, _ | ⟨d, _ | ⟨e, rest⟩⟩⟩⟩⟩ <;>
    simp_all
  
theorem octetsMatch_eq (a b : List Nat) (ha : a.length = 4) (hb : b.length = 4)
    (h : octetsMatch a b = true) : a = b := by
  obtain ⟨a0, a1, a2, a3, rfl⟩ := list_eq_four ha
  obtain ⟨b0, b1, b2, b3, rfl⟩ := list_eq_four hb
  simp [octetsMatch, List.range_succ] at h
  obtain ⟨h0, h1, h2, h3⟩ := h
  simp_all

/-- C4: for every received ARP request whose target protocol address equals
the configured IP, `etherSendArpResponse` transmits a 42-octet frame with
op 2 (network order), sender hardware address equal to the device MAC,
sender protocol address equal to the configured IP, target hardware address
equal to the request sender MAC, and target protocol address equal to the
request sender IP. -/
theorem claim4_arp_response (ipAddress macAddress : List Nat) (p : ArpPkt)
    (hreq : etherIsArpRequest ipAddress p = true)
    (hlen : p.arpDestIp.length = 4) (hiplen : ipAddress.length = 4) :
    (etherSendArpResponse macAddress p).2 = 42
    ∧ (etherSendArpResponse macAddress p).1.op = htons 2
    ∧ (etherSendArpResponse macAddress p).1.arpSourceAddress = macAddress
    ∧ (etherSendArpResponse macAddress p).1.arpSourceIp = ipAddress
    ∧ (etherSendArpResponse macAddress p).1.arpDestAddress = p.arpSourceAddress
    ∧ (etherSendArpResponse macAddress p).1.arpDestIp = p.arpSourceIp := by
  have hmatch : octetsMatch p.arpDestIp ipAddress = true := by
    simp [etherIsArpRequest] at hreq
    exact hreq.1.2
  have hip : p.arpDestIp = ipAddress := octetsMatch_eq _ _ hlen hiplen hmatch
  refine ⟨rfl, rfl, rfl, ?_, rfl, rfl⟩
  show p.arpDestIp = ipAddress
  exact hip

/-- Witness for C4 at the concrete request `c4req`, configured IP
192.168.1.199, device MAC 02:03:04:05:06:88. -/
theorem claim4_arp_response_witness :
    etherIsArpRequest [192, 168, 1, 199] c4req = true
    ∧ c4req.arpDestIp.length = 4
    ∧ ([192, 168, 1, 199] : List Nat).length = 4
    ∧ ((etherSendArpResponse [2, 3, 4, 5, 6, 136] c4req).2 = 42
      ∧ (etherSendArpResponse [2, 3, 4, 5, 6, 136] c4req).1.op = htons 2
      ∧ (etherSendArpResponse [2, 3, 4, 5, 6, 136] c4req).1.arpSourceAddress
          = [2, 3, 4, 5, 6, 136]
      ∧ (etherSendArpResponse [2, 3, 4, 5, 6, 136] c4req).1.arpSourceIp
          = [192, 168, 1, 199]
      ∧ (etherSendArpResponse [2, 3, 4, 5, 6, 136] c4req).1.arpDestAddress
          = c4req.arpSourceAddress
      ∧ (etherSendArpResponse [2, 3, 4, 5, 6, 136] c4req).1.arpDestIp
          = c4req.arpSourceIp) :=
  ⟨by decide, by decide, by decide,
    claim4_arp_response [192, 168, 1, 199] [2, 3, 4, 5, 6, 136] c4req
      (by decide) (by decide) (by decide)⟩


/-- C truthiness of `(x >> k) & 1` is the k-th bit. -/
theorem bit_extract (x k : Nat) : (((x >>> k) &&& 1) != 0) = x.testBit k := by
  unfold Nat.testBit
  rw [Nat.and_comm]

/-- C5: for every received ICMP echo request, the reply built by
`etherSendPingResponse` keeps the payload, the ICMP id and sequence fields
and the IP total length of the request, sets the ICMP type to 0, swaps the
Ethernet and IP source/destination addresses, and is transmitted with
`14 + ntohs(ip->length)` octets. -/
theorem claim5_ping_response (p : IcmpPkt) (hreq : etherIsPingRequest p = true) :
    (etherSendPingResponse p).1.icmpData = p.icmpData
    ∧ (etherSendPingResponse p).1.icmpId = p.icmpId
    ∧ (etherSendPingResponse p).1.seq_no = p.seq_no
    ∧ (etherSendPingResponse p).1.length = p.length
    ∧ (etherSendPingResponse p).1.icmpType = 0
    ∧ (etherSendPingResponse p).1.destAddress = p.sourceAddress
    ∧ (etherSendPingResponse p).1.sourceAddress = p.destAddress
    ∧ (etherSendPingResponse p).1.destIp = p.sourceIp
    ∧ (etherSendPingResponse p).1.sourceIp = p.destIp
    ∧ (etherSendPingResponse p).2 = 14 + htons p.length :=
  ⟨rfl, rfl, rfl, rfl, rfl, rfl, rfl, rfl, rfl, rfl⟩

/-- Witness for C5: the echo request `c5req` (payload "abcdef", id 1,
seq 7). -/
theorem claim5_ping_response_witness :
    etherIsPingRequest c5req = true
    ∧ ((etherSendPingResponse c5req).1.icmpData = c5req.icmpData
      ∧ (etherSendPingResponse c5req).1.icmpId = c5req.icmpId
      ∧ (etherSendPingResponse c5req).1.seq_no = c5req.seq_no
      ∧ (etherSendPingResponse c5req).1.length = c5req.length
      ∧ (etherSendPingResponse c5req).1.icmpType = 0
      ∧ (etherSendPingResponse c5req).1.destAddress = c5req.sourceAddress
      ∧ (etherSendPingResponse c5req).1.sourceAddress = c5req.destAddress
      ∧ (etherSendPingResponse c5req).1.destIp = c5req.sourceIp
      ∧ (etherSendPingResponse c5req).1.sourceIp = c5req.destIp
      ∧ (etherSendPingResponse c5req).2 = 14 + htons c5req.length) :=
  ⟨by decide, claim5_ping_response c5req (by decide)⟩

/-- C3: on a received SYN, `etherSendTcpSynAck` replies with SYN and ACK
both set, acknowledgement number `seq + 1` (32-bit), sequence number equal
to the pre-increment `currentIsn`, and `currentIsn` advances by one; then a
pure ACK whose acknowledgement number equals the advanced `currentIsn`,
dispatched while `tcp_state = SYN_RECEIVED (1)`, moves the state to
`ESTABLISHED (2)` (and the SYN itself moves any state to SYN_RECEIVED). -/
theorem claim3_tcp_handshake (p q : TcpPkt) (isn : Nat)
    (hisn : isn < 4294967296)
    (hhl : p.headerLength < 65536)
    (hseq : p.sequenceNumber < 4294967296)
    (hsyn : (htons p.headerLength).testBit 1 = true)
    (hqsyn : (htons q.headerLength).testBit 1 = false)
    (hqack : (htons q.headerLength).testBit 4 = true)
    (hqmatch : htols q.ackNumber = (isn + 1) % 4294967296) :
    (htons (etherSendTcpSynAck p isn).pkt.headerLength).testBit 4 = true
    ∧ (htons (etherSendTcpSynAck p isn).pkt.headerLength).testBit 1 = true
    ∧ htols (etherSendTcpSynAck p isn).pkt.ackNumber
        = (htols p.sequenceNumber + 1) % 4294967296
    ∧ htols (etherSendTcpSynAck p isn).pkt.sequenceNumber = isn
    ∧ (etherSendTcpSynAck p isn).isn = (isn + 1) % 4294967296
    ∧ (∀ st, (tcpDispatch st isn p).1 = 1)
    ∧ (tcpDispatch 1 ((etherSendTcpSynAck p isn).isn) q).1 = 2 := by
  have hhl1 : (etherSendTcpSynAck p isn).pkt.headerLength
      = htons (htons p.headerLength ||| (1 <<< 4)) := rfl
  have hbound : htons p.headerLength ||| (1 <<< 4) < 65536 := by
    have h16 : (2:Nat)^16 = 65536 := by norm_num
    rw [← h16]
    exact Nat.or_lt_two_pow (h16 ▸ htons_lt _) (by decide)
  have hack : (etherSendTcpSynAck p isn).pkt.ackNumber
      = htols ((htols p.sequenceNumber + 1) % 4294967296) := rfl
  have hseqr : (etherSendTcpSynAck p isn).pkt.sequenceNumber = htols isn := rfl
  have hisnr : (etherSendTcpSynAck p isn).isn = (isn + 1) % 4294967296 := rfl
  have hsynp : etherIsTcpSYN p = true := by
    unfold etherIsTcpSYN
    rw [bit_extract, hsyn]
  have hsynq : etherIsTcpSYN q = false := by
    unfold etherIsTcpSYN
    rw [bit_extract, hqsyn]
  have hackq : etherIsTcpAck ((isn + 1) % 4294967296) q = true := by
    unfold etherIsTcpAck
    rw [bit_extract, hqack, hqmatch]
    simp
  refine ⟨?_, ?_, ?_, ?_, hisnr, ?_, ?_⟩
  · rw [hhl1, htons_htons _ hbound]
    simp only [Nat.testBit_or, Bool.or_eq_true]
    exact Or.inr (by decide)
  · rw [hhl1, htons_htons _ hbound]
    simp only [Nat.testBit_or, Bool.or_eq_true]
    exact Or.inl hsyn
  · have hin : (htols p.sequenceNumber + 1) % 4294967296 < 4294967296 :=
      Nat.mod_lt _ (by norm_num)
    rw [hack, htols_htols _ hin]
  · rw [hseqr, htols_htols _ hisn]
  · intro st
    simp [tcpDispatch, hsynp]
  · rw [hisnr]
    simp [tcpDispatch, hsynq, hackq]

/-- Witness for C3: SYN `c3syn` (seq 0x1000) against `currentIsn = 0`, then
the pure ACK `c3ack` (ack 1). -/
theorem claim3_tcp_handshake_witness :
    (0 : Nat) < 4294967296
    ∧ c3syn.headerLength < 65536
    ∧ c3syn.sequenceNumber < 4294967296
    ∧ (htons c3syn.headerLength).testBit 1 = true
    ∧ (htons c3ack.headerLength).testBit 1 = false
    ∧ (htons c3ack.headerLength).testBit 4 = true
    ∧ htols c3ack.ackNumber = (0 + 1) % 4294967296
    ∧ ((htons (etherSendTcpSynAck c3syn 0).pkt.headerLength).testBit 4 = true
      ∧ (htons (etherSendTcpSynAck c3syn 0).pkt.headerLength).testBit 1 = true
      ∧ htols (etherSendTcpSynAck c3syn 0).pkt.ackNumber
          = (htols c3syn.sequenceNumber + 1) % 4294967296
      ∧ htols (etherSendTcpSynAck c3syn 0).pkt.sequenceNumber = 0
      ∧ (etherSendTcpSynAck c3syn 0).isn = (0 + 1) % 4294967296
      ∧ (∀ st, (tcpDispatch st 0 c3syn).1 = 1)
      ∧ (tcpDispatch 1 ((etherSendTcpSynAck c3syn 0).isn) c3ack).1 = 2) :=
  ⟨by decide, by decide, by decide, by decide, by decide, by decide, by decide,
    claim3_tcp_handshake c3syn c3ack 0 (by decide) (by decide) (by decide)
      (by decide) (by decide) (by decide) (by decide)⟩


/-- C truthiness of `x & 1` is bit 0. -/
theorem bit_extract0 (x : Nat) : ((x &&& 1) != 0) = x.testBit 0 := by
  unfold Nat.testBit
  rw [Nat.shiftRight_zero, Nat.and_comm]

/-- C6: on a received FIN|ACK (dispatched outside SYN_RECEIVED), the stack
emits exactly two segments in order; both carry the ACK flag, the first has
FIN clear, the second has FIN set, both carry the same size and the same
sequence number `htols currentIsn` (the pre-increment `currentIsn` in
network order), and the dispatch moves `tcp_state` to FINWAIT_1 (3). -/
theorem claim6_finack_two_segments (p : TcpPkt) (isn : Nat)
    (hhl : p.headerLength < 65536)
    (hfin : (htons p.headerLength).testBit 0 = true)
    (hackb : (htons p.headerLength).testBit 4 = true)
    (hsyn0 : (htons p.headerLength).testBit 1 = false)
    (hpsh0 : (htons p.headerLength).testBit 3 = false)
    (hmatch : htols p.ackNumber = isn) :
    (∃ s1 s2 n,
      (etherSendAckFinAck p isn).sent = [(s1, n), (s2, n)]
      ∧ (htons s1.headerLength).testBit 4 = true
      ∧ (htons s1.headerLength).testBit 0 = false
      ∧ (htons s2.headerLength).testBit 4 = true
      ∧ (htons s2.headerLength).testBit 0 = true
      ∧ s1.sequenceNumber = htols isn
      ∧ s2.sequenceNumber = htols isn)
    ∧ tcpDispatch 2 isn p
        = (3, (isn + 1) % 4294967296, (etherSendAckFinAck p isn).sent) := by
  have hshape : ∃ s1 s2 n, (etherSendAckFinAck p isn).sent = [(s1, n), (s2, n)]
      ∧ s1.headerLength = htons (((htons p.headerLength ||| (1 <<< 4)) >>> 1) <<< 1)
      ∧ s2.headerLength = htons (htons s1.headerLength ||| 1)
      ∧ s1.sequenceNumber = htols isn
      ∧ s2.sequenceNumber = htols isn :=
    ⟨_, _, _, rfl, rfl, rfl, rfl, rfl⟩
  obtain ⟨s1, s2, n, hsent, hh1, hh2, hs1, hs2⟩ := hshape
  have hbound2 : htons p.headerLength ||| (1 <<< 4) < 65536 := by
    have h16 : (2:Nat)^16 = 65536 := by norm_num
    rw [← h16]
    exact Nat.or_lt_two_pow (h16 ▸ htons_lt _) (by decide)
  have hAlt : ((htons p.headerLength ||| (1 <<< 4)) >>> 1) <<< 1 < 65536 := by
    rw [Nat.shiftLeft_eq, Nat.shiftRight_eq_div_pow]
    norm_num
    omega
  have hA4 : ((((htons p.headerLength ||| (1 <<< 4)) >>> 1) <<< 1)).testBit 4 = true := by
    simp only [Nat.testBit_shiftLeft, Nat.testBit_shiftRight, Nat.testBit_or,
      ge_iff_le, Bool.or_eq_true]
    norm_num
  have hA0 : ((((htons p.headerLength ||| (1 <<< 4)) >>> 1) <<< 1)).testBit 0 = false := by
    simp [Nat.testBit_shiftLeft]
  have hBbound : (((htons p.headerLength ||| (1 <<< 4)) >>> 1) <<< 1) ||| 1 < 65536 := by
    have h16 : (2:Nat)^16 = 65536 := by norm_num
    rw [← h16]
    exact Nat.or_lt_two_pow (h16 ▸ hAlt) (by decide)
  have hsynf : etherIsTcpSYN p = false := by
    unfold etherIsTcpSYN
    rw [bit_extract, hsyn0]
  have htel : etherIsTelnetData isn p = false := by
    unfold etherIsTelnetData
    rw [bit_extract, hpsh0]
    simp
  have hfa : etherIsTcpFINACK isn p = true := by
    unfold etherIsTcpFINACK
    rw [bit_extract, bit_extract0, hfin, hackb, hmatch]
    simp
  constructor
  · refine ⟨s1, s2, n, hsent, ?_, ?_, ?_, ?_, hs1, hs2⟩
    · rw [hh1, htons_htons _ hAlt]
      exact hA4
    · rw [hh1, htons_htons _ hAlt]
      exact hA0
    · rw [hh2, hh1, htons_htons _ hAlt, htons_htons _ hBbound]
      simp only [Nat.testBit_or, Bool.or_eq_true]
      exact Or.inl hA4
    · rw [hh2, hh1, htons_htons _ hAlt, htons_htons _ hBbound]
      simp only [Nat.testBit_or, Bool.or_eq_true]
      exact Or.inr (by decide)
  · simp only [tcpDispatch, hsynf, htel, hfa, Bool.false_eq_true, if_false,
      Bool.and_eq_true, beq_iff_eq]
    norm_num
    rfl

/-- Witness for C6: the FIN|ACK segment `c6fin` against `currentIsn = 5`. -/
theorem claim6_finack_two_segments_witness :
    c6fin.headerLength < 65536
    ∧ (htons c6fin.headerLength).testBit 0 = true
    ∧ (htons c6fin.headerLength).testBit 4 = true
    ∧ (htons c6fin.headerLength).testBit 1 = false
    ∧ (htons c6fin.headerLength).testBit 3 = false
    ∧ htols c6fin.ackNumber = 5
    ∧ ((∃ s1 s2 n,
        (etherSendAckFinAck c6fin 5).sent = [(s1, n), (s2, n)]
        ∧ (htons s1.headerLength).testBit 4 = true
        ∧ (htons s1.headerLength).testBit 0 = false
        ∧ (htons s2.headerLength).testBit 4 = true
        ∧ (htons s2.headerLength).testBit 0 = true
        ∧ s1.sequenceNumber = htols 5
        ∧ s2.sequenceNumber = htols 5)
      ∧ tcpDispatch 2 5 c6fin
          = (3, (5 + 1) % 4294967296, (etherSendAckFinAck c6fin 5).sent)) :=
  ⟨by decide, by decide, by decide, by decide, by decide, by decide,
    claim6_finack_two_segments c6fin 5 (by decide) (by decide) (by decide)
      (by decide) (by decide) (by decide)⟩


/-- C7 counterexample: `c7zero` is an IPv4/UDP datagram (protocol 17) whose
UDP checksum field (bytes 40-41) is zero, yet `etherIsUdp` rejects it: the
receive path has no "zero means no checksum" case. -/
theorem claim7_zero_checksum_counterexample :
    c7zero.getD 23 0 = 0x11
    ∧ c7zero.getD (14 + (c7zero.getD 14 0 &&& 0xF) * 4 + 6) 0 = 0
    ∧ c7zero.getD (14 + (c7zero.getD 14 0 &&& 0xF) * 4 + 7) 0 = 0
    ∧ etherIsUdp c7zero = false := by
  decide


/-- C7 amended: `etherIsUdp` accepts a datagram exactly when its checksum
verifies over the pseudo-header and full datagram; every well-formed
IPv4/UDP datagram whose checksum field holds the verifying value (the one
the send path produces) is accepted.  A zero checksum field is not special
(see the counterexample). -/
theorem claim7_udp_checksum_verified_accepted
    (hdr26 src dst ipo payload : List Nat) (sp0 sp1 dp0 dp1 l0 l1 : Nat)
    (hh26 : hdr26.length = 26) (hsrc : src.length = 4) (hdst : dst.length = 4)
    (hihl : (hdr26.getD 14 0 &&& 0xF) * 4 = 20 + ipo.length)
    (hprot : hdr26.getD 23 0 = 0x11)
    (hwire : l0 * 256 + l1 = 8 + payload.length)
    (hb1 : ∀ b ∈ src, b < 256) (hb2 : ∀ b ∈ dst, b < 256)
    (hb3 : ∀ b ∈ payload, b < 256)
    (hsp0 : sp0 < 256) (hsp1 : sp1 < 256) (hdp0 : dp0 < 256) (hdp1 : dp1 < 256)
    (hl0 : l0 < 256) (hl1 : l1 < 256) (hplen : payload.length ≤ 1480) :
    etherIsUdp (hdr26 ++ src ++ dst ++ ipo ++ [sp0, sp1, dp0, dp1, l0, l1]
      ++ [udpVerifyingChecksum src dst sp0 sp1 dp0 dp1 l0 l1 payload % 256,
          udpVerifyingChecksum src dst sp0 sp1 dp0 dp1 l0 l1 payload / 256]
      ++ payload) = true := by
  set S := wsum false (src ++ dst) + 17 * 256 + (l0 + l1 * 256)
      + (sp0 + sp1 * 256 + dp0 + dp1 * 256 + l0 + l1 * 256)
      + wsum false payload with hSdef
  set c := udpVerifyingChecksum src dst sp0 sp1 dp0 dp1 l0 l1 payload with hcdef
  have hcS : c = 65535 - foldCarry S := by
    rw [hcdef, hSdef]
    rfl
  set pk := hdr26 ++ src ++ dst ++ ipo ++ [sp0, sp1, dp0, dp1, l0, l1]
      ++ [c % 256, c / 256] ++ payload with hpk
  have hcle : c ≤ 65535 := by
    have := foldCarry_lt S
    omega
  have hview : pk = hdr26 ++ (src ++ (dst ++ (ipo
      ++ ([sp0, sp1, dp0, dp1, l0, l1] ++ ([c % 256, c / 256] ++ payload))))) := by
    rw [hpk]
    simp [List.append_assoc]
  have hg23 : pk.getD 23 0 = 0x11 := by
    rw [hview, List.getD_append _ _ _ _ (by omega)]
    exact hprot
  have hg14 : pk.getD 14 0 = hdr26.getD 14 0 := by
    rw [hview, List.getD_append _ _ _ _ (by omega)]
  have hgrpA : pk = ((hdr26 ++ src) ++ dst ++ ipo)
      ++ ([sp0, sp1, dp0, dp1, l0, l1] ++ ([c % 256, c / 256] ++ payload)) := by
    rw [hpk]
    simp [List.append_assoc]
  have hgrpB : pk = ((hdr26 ++ src) ++ dst ++ ipo ++ [sp0, sp1, dp0, dp1])
      ++ ([l0, l1] ++ ([c % 256, c / 256] ++ payload)) := by
    rw [hpk]
    simp [List.append_assoc]
  have hgrpC : pk = hdr26 ++ ((src ++ dst)
      ++ (ipo ++ ([sp0, sp1, dp0, dp1, l0, l1] ++ ([c % 256, c / 256] ++ payload)))) := by
    rw [hpk]
    simp [List.append_assoc]
  have hlenA : (((hdr26 ++ src) ++ dst ++ ipo)).length = 34 + ipo.length := by
    simp [List.length_append, hh26, hsrc, hdst]
    omega
  have hlenB : ((hdr26 ++ src) ++ dst ++ ipo ++ [sp0, sp1, dp0, dp1]).length
      = 38 + ipo.length := by
    simp [List.length_append, hh26, hsrc, hdst]
    omega
  have hg4 : pk.getD (34 + ipo.length + 4) 0 = l0 := by
    rw [hgrpB, List.getD_append_right _ _ _ _ (by omega)]
    rw [hlenB, show 34 + ipo.length + 4 - (38 + ipo.length) = 0 from by omega]
    rfl
  have hg5 : pk.getD (34 + ipo.length + 5) 0 = l1 := by
    rw [hgrpB, List.getD_append_right _ _ _ _ (by omega)]
    rw [hlenB, show 34 + ipo.length + 5 - (38 + ipo.length) = 1 from by omega]
    rfl
  have hdrop26 : (pk.drop 26).take 8 = src ++ dst := by
    rw [hgrpC, List.drop_left' hh26]
    exact List.take_left' (by simp [hsrc, hdst])
  have hdropUs4 : (pk.drop (38 + ipo.length)).take 2 = [l0, l1] := by
    rw [hgrpB, List.drop_left' hlenB]
    exact List.take_left' rfl
  have hdropUs : (pk.drop (34 + ipo.length)).take (8 + payload.length)
      = [sp0, sp1, dp0, dp1, l0, l1] ++ ([c % 256, c / 256] ++ payload) := by
    rw [hgrpA, List.drop_left' hlenA]
    apply List.take_of_length_le
    simp
    omega
  have hw8 : wsum false (src ++ dst) ≤ 65280 * 8 := by
    have h := wsum_le (src ++ dst) false (by
      intro b hb
      rcases List.mem_append.mp hb with h1 | h1
      · exact hb1 b h1
      · exact hb2 b h1)
    rw [List.length_append, hsrc, hdst] at h
    omega
  have hwp : wsum false payload ≤ 65280 * 1480 := by
    have h := wsum_le payload false hb3
    omega
  have hcb : ∀ b ∈ [sp0, sp1, dp0, dp1, l0, l1] ++ ([c % 256, c / 256] ++ payload),
      b < 256 → True := fun _ _ _ => trivial
  have e1 : etherSumWords 0 (src ++ dst) = wsum false (src ++ dst) := by
    unfold etherSumWords
    rw [sumWordsFrom_eq_wsum _ false 0 (by omega)]
    omega
  have e2 : etherSumWords (wsum false (src ++ dst) + 4352) [l0, l1]
      = wsum false (src ++ dst) + 4352 + (l0 + (l1 * 256 + 0)) := by
    unfold etherSumWords
    rw [sumWordsFrom_eq_wsum _ false _ (by
      show wsum false (src ++ dst) + 4352 + wsum false [l0, l1] < 4294967296
      show wsum false (src ++ dst) + 4352 + (l0 + (l1 * 256 + 0)) < 4294967296
      omega)]
    rfl
  have hwU : wsum false ([sp0, sp1, dp0, dp1, l0, l1] ++ ([c % 256, c / 256] ++ payload))
      = (sp0 + (sp1 * 256 + (dp0 + (dp1 * 256 + (l0 + (l1 * 256 + 0))))))
        + ((c % 256 + (c / 256 * 256 + 0)) + wsum false payload) := by
    rw [wsum_append_even _ _ (by simp)]
    rw [wsum_append_even _ _ (by simp)]
    rfl
  have e3 : etherSumWords (wsum false (src ++ dst) + 4352 + (l0 + (l1 * 256 + 0)))
        ([sp0, sp1, dp0, dp1, l0, l1] ++ ([c % 256, c / 256] ++ payload))
      = wsum false (src ++ dst) + 4352 + (l0 + (l1 * 256 + 0))
        + wsum false ([sp0, sp1, dp0, dp1, l0, l1] ++ ([c % 256, c / 256] ++ payload)) := by
    unfold etherSumWords
    rw [sumWordsFrom_eq_wsum _ false _ (by rw [hwU]; omega)]
  simp only [etherIsUdp, hg23]
  rw [show ((0x11 : Nat) == 0x11) = true from rfl]
  simp only [if_true]
  rw [hg14, hihl]
  rw [show 14 + (20 + ipo.length) = 34 + ipo.length from by omega]
  rw [hg4, hg5]
  rw [show l0 + 256 * l1 = l0 + l1 * 256 from by ring]
  rw [htons_digits l0 l1 hl0 hl1]
  rw [show l1 + l0 * 256 = 8 + payload.length from by omega]
  rw [hdrop26]
  rw [show 34 + ipo.length + 4 = 38 + ipo.length from by omega]
  rw [hdropUs4, hdropUs]
  rw [e1]
  rw [show ((0x11 : Nat) &&& 0xff) <<< 8 = 4352 from by decide]
  rw [Nat.mod_eq_of_lt (by omega)]
  rw [e2, e3, hwU]
  rw [show wsum false (src ++ dst) + 4352 + (l0 + (l1 * 256 + 0))
      + ((sp0 + (sp1 * 256 + (dp0 + (dp1 * 256 + (l0 + (l1 * 256 + 0))))))
        + ((c % 256 + (c / 256 * 256 + 0)) + wsum false payload))
      = S + (65535 - foldCarry S) from by
    rw [hSdef] at hcS ⊢
    omega]
  rw [checksum_complement_zero S]
  rfl


/-- Witness for the amended C7: the `c7zero` frame with its checksum field
filled by the verifying value is accepted. -/
theorem claim7_udp_checksum_verified_accepted_witness :
    c7hdr26.length = 26
    ∧ ([192, 168, 1, 1] : List Nat).length = 4
    ∧ ([192, 168, 1, 199] : List Nat).length = 4
    ∧ (c7hdr26.getD 14 0 &&& 0xF) * 4 = 20 + ([] : List Nat).length
    ∧ c7hdr26.getD 23 0 = 0x11
    ∧ 0 * 256 + 10 = 8 + ([111, 110] : List Nat).length
    ∧ etherIsUdp (c7hdr26 ++ [192, 168, 1, 1] ++ [192, 168, 1, 199] ++ []
        ++ [4, 0, 4, 0, 0, 10]
        ++ [udpVerifyingChecksum [192, 168, 1, 1] [192, 168, 1, 199]
              4 0 4 0 0 10 [111, 110] % 256,
            udpVerifyingChecksum [192, 168, 1, 1] [192, 168, 1, 199]
              4 0 4 0 0 10 [111, 110] / 256]
        ++ [111, 110]) = true :=
  ⟨by decide, by decide, by decide, by decide, by decide, by decide,
    claim7_udp_checksum_verified_accepted c7hdr26 [192, 168, 1, 1]
      [192, 168, 1, 199] [] [111, 110] 4 0 4 0 0 10
      (by decide) (by decide) (by decide) (by decide) (by decide) (by decide)
      (by decide) (by decide) (by decide) (by decide) (by decide) (by decide)
      (by decide) (by decide) (by decide) (by decide)⟩


/-- C10 refuted on the code: with `MAX_CHARS = 80`, a line of 82 delimiter
characters followed by CR makes `getsUart0` store NUL bytes at indices
0 through 82 -- the delimiter branch has no bound check, so bytes land at
indices 81 and 82, strictly beyond `MAX_CHARS`. -/
theorem claim10_getsUart0_oob :
    ((getsUart0Writes 80 0 (List.replicate 82 44 ++ [13])).map Prod.fst
      = List.range 83)
    ∧ ∃ w ∈ getsUart0Writes 80 0 (List.replicate 82 44 ++ [13]), 80 < w.1 := by
  decide


/-- C1: when the T1 one-shot fires in BOUND, the next pass does move the
client to RENEWING and arms the 15 s renew periodic timer; but when that
timer fires, the pass calls `etherSendDhcpPacket(data, 4)`, and packet
type 4 is built as a broadcast DHCPDECLINE, not the claimed unicast
REQUEST: destination MAC ff:ff:ff:ff:ff:ff (not the server MAC),
destination IP 255.255.255.255 (not the server IP), the broadcast flag
`htons(0x8000)` set (not clear), and option 53 carrying message type 4
(not 3). -/
theorem claim1_renew_sends_broadcast_decline :
    (mainIteration (tickSys c1bound) none none).dhcpState = 5
    ∧ ((mainIteration (tickSys c1bound) none none).timers.renewing =
        some { periodic := true, remaining := 15, reload := 15 })
    ∧ (mainIteration (tickSys^[15] (mainIteration (tickSys c1bound) none none))
        none none).emitted = [4]
    ∧ c1pkt.destAddress = List.replicate 6 255
    ∧ c1pkt.destAddress ≠ [0, 80, 171, 12, 52, 97]
    ∧ c1pkt.destIp = [255, 255, 255, 255]
    ∧ c1pkt.destIp ≠ [10, 0, 0, 1]
    ∧ c1pkt.flags = htons 0x8000
    ∧ c1pkt.flags ≠ 0
    ∧ c1pkt.options.take 3 = [53, 1, 4] := by
  refine ⟨by decide, by decide, by decide, by decide, by decide, by decide,
    by decide, by decide, by decide, by decide⟩


theorem tickSys_t1 (s : Sys) : (tickSys s).timers.t1 = (tickSlot s.timers.t1).1 := rfl

theorem tickSys_t2 (s : Sys) : (tickSys s).timers.t2 = (tickSlot s.timers.t2).1 := rfl

theorem tickSys_rebinding (s : Sys) :
    (tickSys s).timers.rebinding = (tickSlot s.timers.rebinding).1 := rfl

theorem tickSys_rebind_flag (s : Sys) :
    (tickSys s).flags.rebind = (s.flags.rebind || (tickSlot s.timers.t2).2) := rfl

theorem consoleStep_inv (s : Sys) (e : Option ConsoleEvt) (h : DhcpInv s) :
    DhcpInv (consoleStep s e) ∧ (consoleStep s e).flags.rebind = s.flags.rebind := by
  unfold consoleStep
  split
  · exact ⟨h, rfl⟩
  · exact ⟨h, rfl⟩
  · refine ⟨⟨Or.inl rfl, ?_, fun _ => rfl⟩, rfl⟩
    intro hx
    simp [noTimers] at hx
  · split
    · exact ⟨h, rfl⟩
    · exact ⟨h, rfl⟩
  · split
    · exact ⟨h, rfl⟩
    · exact ⟨h, rfl⟩

theorem initSection_inv (s : Sys) (h : DhcpInv s) :
    DhcpInv (initSection s) ∧ (initSection s).flags.rebind = s.flags.rebind := by
  unfold initSection
  split
  · exact ⟨h, rfl⟩
  · exact ⟨h, rfl⟩

theorem sendDhcpSection_inv (s : Sys) (h : DhcpInv s) :
    DhcpInv (sendDhcpSection s) ∧ (sendDhcpSection s).flags.rebind = s.flags.rebind := by
  unfold sendDhcpSection
  split
  · exact ⟨h, rfl⟩
  · exact ⟨h, rfl⟩

theorem safeSection_inv (s : Sys) (h : DhcpInv s) :
    DhcpInv (safeSection s) ∧ (safeSection s).flags.rebind = s.flags.rebind := by
  unfold safeSection
  split
  · exact ⟨h, rfl⟩
  · exact ⟨h, rfl⟩

theorem renewSection_inv (s : Sys) (h : DhcpInv s) :
    DhcpInv (renewSection s) ∧ (renewSection s).flags.rebind = s.flags.rebind := by
  unfold renewSection
  split
  · exact ⟨h, rfl⟩
  · exact ⟨h, rfl⟩

theorem sendRenewSection_inv (s : Sys) (h : DhcpInv s) :
    DhcpInv (sendRenewSection s) ∧ (sendRenewSection s).flags.rebind = s.flags.rebind := by
  unfold sendRenewSection
  split
  · exact ⟨h, rfl⟩
  · exact ⟨h, rfl⟩



theorem rebindSection_inv (s : Sys) (h : DhcpInv s) :
    DhcpInv (rebindSection s) ∧ (rebindSection s).flags.rebind = false := by
  unfold rebindSection
  split
  · rename_i hc
    have ht1 : s.timers.t1 = none := h.2.2 hc
    refine ⟨⟨Or.inl ht1, ?_, fun _ => ht1⟩, rfl⟩
    intro hx
    have hx2 : s.timers.t1.isSome = true := hx
    rw [ht1] at hx2
    simp at hx2
  · rename_i hc
    exact ⟨h, by simpa using hc⟩

theorem sendRebindSection_inv (s : Sys) (h : DhcpInv s) :
    DhcpInv (sendRebindSection s)
      ∧ (sendRebindSection s).flags.rebind = s.flags.rebind := by
  unfold sendRebindSection
  split
  · exact ⟨h, rfl⟩
  · exact ⟨h, rfl⟩

theorem leaseEndSection_inv (s : Sys) (h : DhcpInv s) :
    DhcpInv (leaseEndSection s)
      ∧ (leaseEndSection s).flags.rebind = s.flags.rebind := by
  unfold leaseEndSection
  split
  · exact ⟨⟨Or.inr rfl, h.2.1, fun hx => h.2.2 hx⟩, rfl⟩
  · exact ⟨h, rfl⟩

theorem releaseSection_inv (s : Sys) (h : DhcpInv s) :
    DhcpInv (releaseSection s)
      ∧ (releaseSection s).flags.rebind = s.flags.rebind := by
  unfold releaseSection
  split
  · refine ⟨⟨Or.inl rfl, ?_, fun _ => rfl⟩, rfl⟩
    intro hx
    simp [noTimers] at hx
  · exact ⟨h, rfl⟩

theorem declineSection_inv (s : Sys) (h : DhcpInv s) :
    DhcpInv (declineSection s)
      ∧ (declineSection s).flags.rebind = s.flags.rebind := by
  unfold declineSection
  split
  · exact ⟨h, rfl⟩
  · exact ⟨h, rfl⟩

theorem offerStep_inv (s : Sys) (offer : Bool) (h : DhcpInv s) :
    DhcpInv (offerStep s offer) ∧ (offerStep s offer).flags.rebind = s.flags.rebind := by
  unfold offerStep
  split
  · exact ⟨h, rfl⟩
  · exact ⟨h, rfl⟩

theorem ackStep_inv (s : Sys) (lease : Nat) (h : DhcpInv s)
    (hr : s.flags.rebind = false) : DhcpInv (ackStep s lease) := by
  unfold ackStep
  split
  · refine ⟨Or.inr rfl, ?_, ?_⟩
    · intro _
      refine ⟨rfl, ?_, rfl⟩
      show remOf (startOneshot (lease / 2)) ≤ remOf (startOneshot (7 * lease / 8))
      simp only [startOneshot, remOf]
      omega
    · intro hx
      have hx2 : s.flags.rebind = true := hx
      rw [hr] at hx2
      simp at hx2
  · exact h

theorem packetSection_inv (s : Sys) (pe : Option PacketEvt) (h : DhcpInv s)
    (hr : s.flags.rebind = false) : DhcpInv (packetSection s pe) := by
  cases pe with
  | none => exact h
  | some ev =>
    cases ev with
    | unicast => simpa [packetSection, isArpResponse] using h
    | bcast offer lease =>
      have ho := offerStep_inv s offer h
      exact ackStep_inv (offerStep s offer) lease ho.1 (ho.2.trans hr)


theorem tickSys_inv (s : Sys) (h : DhcpInv s) : DhcpInv (tickSys s) := by
  obtain ⟨h1, h2, h3⟩ := h
  cases ht1 : s.timers.t1 with
  | none =>
    have ht1n : (tickSys s).timers.t1 = none := by
      rw [tickSys_t1, ht1]
      rfl
    refine ⟨Or.inl ht1n, ?_, fun _ => ht1n⟩
    intro hx
    rw [ht1n] at hx
    simp at hx
  | some a =>
    have hsome : s.timers.t1.isSome = true := by
      rw [ht1]
      rfl
    obtain ⟨hb2, hle, hper⟩ := h2 hsome
    obtain ⟨b, hb⟩ := Option.isSome_iff_exists.mp hb2
    have hra : remOf s.timers.t1 = a.remaining := by
      rw [ht1]
      simp [remOf]
    have hrb : remOf s.timers.t2 = b.remaining := by
      rw [hb]
      simp [remOf]
    have hpa : a.periodic = false := by
      rw [ht1] at hper
      simpa [periodicOf] using hper
    rw [hra, hrb] at hle
    by_cases hfire : a.remaining ≤ 1
    case pos =>
      have ht1n : (tickSys s).timers.t1 = none := by
        rw [tickSys_t1, ht1]
        simp [tickSlot, hfire, hpa]
      refine ⟨Or.inl ht1n, ?_, fun _ => ht1n⟩
      intro hx
      rw [ht1n] at hx
      simp at hx
    case neg =>
      have hbfire : ¬ b.remaining ≤ 1 := by omega
      have ht1s : (tickSys s).timers.t1
          = some { a with remaining := a.remaining - 1 } := by
        rw [tickSys_t1, ht1]
        simp [tickSlot, hfire]
      have ht2s : (tickSys s).timers.t2
          = some { b with remaining := b.remaining - 1 } := by
        rw [tickSys_t2, hb]
        simp [tickSlot, hbfire]
      have hrebn : s.timers.rebinding = none := by
        rcases h1 with hx | hx
        · rw [ht1] at hx
          exact absurd hx (by simp)
        · exact hx
      have hrebn2 : (tickSys s).timers.rebinding = none := by
        rw [tickSys_rebinding, hrebn]
        rfl
      have hflag : (tickSys s).flags.rebind = s.flags.rebind := by
        rw [tickSys_rebind_flag, hb]
        simp [tickSlot, hbfire]
      refine ⟨Or.inr hrebn2, ?_, ?_⟩
      · intro _
        refine ⟨?_, ?_, ?_⟩
        · rw [ht2s]
          rfl
        · rw [ht1s, ht2s]
          simp only [remOf]
          omega
        · rw [ht1s]
          simpa [periodicOf] using hpa
      · intro hx
        rw [hflag] at hx
        have hcontra := h3 hx
        rw [ht1] at hcontra
        exact Option.noConfusion hcontra


theorem mainIteration_inv (s : Sys) (ce : Option ConsoleEvt) (pe : Option PacketEvt)
    (h : DhcpInv s) : DhcpInv (mainIteration s ce pe) := by
  unfold mainIteration
  have d1 := consoleStep_inv s ce h
  have d2 := initSection_inv _ d1.1
  have d3 := sendDhcpSection_inv _ d2.1
  have d4 := safeSection_inv _ d3.1
  have d5 := renewSection_inv _ d4.1
  have d6 := sendRenewSection_inv _ d5.1
  have d7 := rebindSection_inv _ d6.1
  have d8 := sendRebindSection_inv _ d7.1
  have d9 := leaseEndSection_inv _ d8.1
  have d10 := releaseSection_inv _ d9.1
  have d11 := declineSection_inv _ d10.1
  refine packetSection_inv _ pe d11.1 ?_
  rw [d11.2, d10.2, d9.2, d8.2, d7.2]

theorem initSys_inv (m : Bool) : DhcpInv (initSys m) := by
  refine ⟨Or.inl rfl, ?_, fun _ => rfl⟩
  intro hx
  simp [initSys, noTimers] at hx

theorem reachable_inv (s : Sys) (h : Reachable s) : DhcpInv s := by
  induction h with
  | boot m => exact initSys_inv m
  | tick t ht ih => exact tickSys_inv t ih
  | iter t ce pe ht ih => exact mainIteration_inv t ce pe ih


/-- C9: in every state the DHCP client can reach - from boot through any
interleaving of 1 Hz timer ticks and main-loop passes with arbitrary
console and packet events - the T1 one-shot timer and the rebind periodic
timer are never simultaneously armed. -/
theorem claim9_t1_rebind_mutex (s : Sys) (h : Reachable s) :
    ¬ (s.timers.t1.isSome = true ∧ s.timers.rebinding.isSome = true) := by
  have hI := reachable_inv s h
  rintro ⟨ha, hb⟩
  rcases hI.1 with hx | hx
  · rw [hx] at ha
    simp at ha
  · rw [hx] at hb
    simp at hb

theorem claim9_t1_rebind_mutex_witness :
    ¬ ((mainIteration (tickSys (initSys true)) none none).timers.t1.isSome = true
        ∧ (mainIteration (tickSys (initSys true)) none none).timers.rebinding.isSome = true) :=
  claim9_t1_rebind_mutex (mainIteration (tickSys (initSys true)) none none)
    (Reachable.iter (tickSys (initSys true)) none none
      (Reachable.tick (initSys true) (Reachable.boot true)))
